import Mathlib

/-!
Verification development for the aggregation-pipeline-to-plan compiler of
pg_helio_api (files `bson_aggregation_nested_pipeline.c` and
`bson_aggregation_output_pipeline.c`).

The development is a shallow embedding: BSON stage arguments become the
inductive `BsonValue`, the PostgreSQL `Query` node becomes the nested
inductive `Query` below, and each C stage handler becomes a Lean function
of the same name (`handleLookup`, `handleFacet`, `handleUnionWith`,
`handleGraphLookup`, `handleDocumentsStage`, `handleMerge`, ...).
`ereport(ERROR, errcode(..))` control flow becomes `Except MongoCode`.

Functions of this repository that are referenced by the embedded files but
whose definitions live outside them (the stage dispatcher
`MutateQueryWithPipeline`, the helpers `MigrateQueryToSubQuery`,
`MakeSubQueryRte`, `GenerateBaseTableQuery`, `CanInlineLookupPipeline`,
`HandleMatch`, and PostgreSQL's `rewriteSearchAndCycle`) are modelled from
the specification; each such definition carries a doc comment starting
with `Modelled from the spec:`.
-/

/-- A BSON value, restricted to the shapes the embedded code inspects.
`eod` is libbson's BSON_TYPE_EOD (used by the C code for "absent value"),
`other` stands for any scalar type not otherwise distinguished. -/
inductive BsonValue where
  | eod : BsonValue
  | utf8 (s : String) : BsonValue
  | int32 (n : Int) : BsonValue
  | boolVal (b : Bool) : BsonValue
  | doc (fields : List (String × BsonValue)) : BsonValue
  | arr (elems : List BsonValue) : BsonValue
  | other (tag : String) : BsonValue
  deriving Repr

/-- Error codes raised by the embedded code (the `errcode(Mongo...)`
arguments of the `ereport` calls in the two C files). -/
inductive MongoCode where
  | badValue
  | failedToParse
  | typeMismatch
  | commandNotSupported
  | commandNotSupportedOnView
  | operationNotSupportedInTransaction
  | unknownBsonField
  | internalError
  | invalidNamespace
  | maxSubPipelineDepthExceeded
  | location40323
  | location15947
  | location40169
  | location40600
  | location51047
  | location40319
  | location40321
  | location31441
  | location40100
  | location40101
  | location40102
  | location40103
  | location40104
  | location40105
  | location16410
  | location40185
  | location5858203
  | location51178
  | location40415
  | location51186
  | location51134
  | location51187
  | location40414
  | location51191
  | location51183
  deriving Repr, DecidableEq

/-- `StringViewStartsWithStringView(&a, &b)`: `a` starts with `b`
(raw character prefix, as the C StringView helper). -/
def svStartsWith (a b : String) : Bool :=
  b.data.isPrefixOf a.data

/-- `StringViewFindPrefix(&s, c)`: the part of `s` before the first
occurrence of `c`; the empty view when `c` does not occur. -/
def stringViewFindPre (s : String) (c : Char) : String :=
  if s.data.contains c then ⟨s.data.takeWhile (fun d => d ≠ c)⟩ else ""

/-- `TryGetBsonValueToPgbsonElement` / `TryGetSinglePgbsonElementFromPgbson`:
a document value holding exactly one element. -/
def tryGetSingleElement : BsonValue → Option (String × BsonValue)
  | .doc [p] => some p
  | _ => none

/-- `BsonValueIsNumber` for the value shapes of the embedding. -/
def bsonValueIsNumber : BsonValue → Bool
  | .int32 _ => true
  | _ => false

/-- `BsonDocumentValueCountKeys` on an array value: its element count. -/
def bsonValueCountKeys : BsonValue → Nat
  | .arr xs => xs.length
  | .doc fs => fs.length
  | _ => 0

/-! ## The plan IR

The PostgreSQL `Query` tree, restricted to the node fields the embedded
code reads or writes.  `Query` is tied as a nested inductive through the
parameterised record types below; `ExprF Query` etc. are abbreviated back
to the PostgreSQL names after the knot is tied. -/

/-- One `SortGroupClause` node (operator oids kept as names). -/
structure SortGroupClause where
  tleSortGroupRef : Nat
  eqop : String
  sortop : String
  hashable : Bool
  deriving Repr, DecidableEq

/-- The `CTECycleClause` of a recursive CTE. -/
structure CycleClause where
  cycleColList : List String
  cycleMarkColumn : String
  cyclePathColumn : String
  cycleMarkDefault : Bool
  cycleMarkValue : Bool
  deriving Repr, DecidableEq

/-- Command type of a `Query` or `MergeAction`. -/
inductive CmdType where
  | select
  | mergeCmd
  | insertCmd
  | updateCmd
  | nothingCmd
  deriving Repr, DecidableEq

/-- Expressions (function oids kept as function names). -/
inductive ExprF (Q : Type) where
  | varE (varno varattno varlevelsup : Nat)
  | constBson (b : BsonValue)
  | constText (s : String)
  | constBool (b : Bool)
  | constInt32 (n : Int)
  | constInt64 (n : Int)
  | constTimestampTz (t : Int)
  | fnCall (fname : String) (args : List (ExprF Q)) (funcretset : Bool)
  | aggFn (fname : String) (args : List (ExprF Q))
  | coalesceE (args : List (ExprF Q))
  | opE (opname : String) (l r : ExprF Q)
  | scalarArrayOpAny (opname : String) (l r : ExprF Q)
  | boolAndE (args : List (ExprF Q))
  | subLinkE (sub : Q)

/-- A `TargetEntry`. -/
structure TargetEntryF (Q : Type) where
  expr : ExprF Q
  resno : Nat
  resname : String
  resjunk : Bool := false
  ressortgroupref : Nat := 0

/-- A `RangeTblEntry`, one constructor per `rtekind` used. -/
inductive RteF (Q : Type) where
  | cteRte (ctename : String) (ctelevelsup : Nat) (aliasName : String)
      (colnames : List String) (selfReference : Bool)
  | subqueryRte (sub : Q) (aliasName : String) (colnames : List String)
      (lateral : Bool) (inFromCl : Bool)
  | functionRte (fexpr : ExprF Q) (aliasName : String) (colnames : List String)
  | joinRte (aliasName : String) (colnames : List String)
      (joinaliasvars : List (ExprF Q)) (joinleftcols joinrightcols : List Nat)
  | relationRte (tableName : String) (colnames : List String)

/-- A common table expression node.  `loweredCycle` records the cycle
clause after `rewriteSearchAndCycle` has lowered it into the recursive
construct (the C keeps that information inside the rewritten query). -/
structure CteF (Q : Type) where
  ctename : String
  ctequery : Q
  ctematerializedAlways : Bool := false
  cterecursive : Bool := false
  cycleClause : Option CycleClause := none
  loweredCycle : Option CycleClause := none
  ctecolnames : List String := []

/-- A set-operation tree (`SetOperationStmt` over `RangeTblRef`s);
`colCount` abstracts the parallel coltype/typmod/collation lists. -/
inductive SetOpNode where
  | setOpRef (rtindex : Nat)
  | setOpStmt (all : Bool) (colCount : Nat) (larg rarg : SetOpNode)
  deriving Repr, DecidableEq

/-- A `MergeAction` node. -/
structure MergeActionF (Q : Type) where
  matched : Bool
  commandType : CmdType
  targetList : List (TargetEntryF Q) := []

/-- An entry of a `FromExpr` fromlist: a range-table reference or a
`JoinExpr` (whose own quals live on the join node). -/
inductive FromItemF (Q : Type) where
  | rtref (rtindex : Nat)
  | joinItem (rtindex : Nat) (larg rarg : FromItemF Q) (quals : ExprF Q)

/-- The fields of a `Query` node that the embedded code manipulates.
`fromList`/`quals` are the two components of the C `jointree` FromExpr. -/
structure QueryF (Q : Type) where
  commandType : CmdType := .select
  querySource : String := "original"
  targetList : List (TargetEntryF Q) := []
  rtable : List (RteF Q) := []
  fromList : List (FromItemF Q) := []
  quals : Option (ExprF Q) := none
  cteList : List (CteF Q) := []
  setOperations : Option SetOpNode := none
  sortClause : List SortGroupClause := []
  distinctClause : List SortGroupClause := []
  hasDistinctOn : Bool := false
  hasAggs : Bool := false
  hasSubLinks : Bool := false
  hasRecursive : Bool := false
  mergeActionList : List (MergeActionF Q) := []
  resultRelation : Nat := 0

/-- The tied plan-tree type. -/
inductive Query where
  | mk (q : QueryF Query)

abbrev Expr := ExprF Query
abbrev TargetEntry := TargetEntryF Query
abbrev Rte := RteF Query
abbrev Cte := CteF Query
abbrev MergeAction := MergeActionF Query
abbrev FromItem := FromItemF Query

def Query.unmk : Query → QueryF Query
  | .mk q => q

def Query.commandType (q : Query) : CmdType := q.unmk.commandType
def Query.querySource (q : Query) : String := q.unmk.querySource
def Query.targetList (q : Query) : List TargetEntry := q.unmk.targetList
def Query.rtable (q : Query) : List Rte := q.unmk.rtable
def Query.fromList (q : Query) : List FromItem := q.unmk.fromList
def Query.quals (q : Query) : Option Expr := q.unmk.quals
def Query.cteList (q : Query) : List Cte := q.unmk.cteList
def Query.setOperations (q : Query) : Option SetOpNode := q.unmk.setOperations
def Query.sortClause (q : Query) : List SortGroupClause := q.unmk.sortClause
def Query.distinctClause (q : Query) : List SortGroupClause := q.unmk.distinctClause
def Query.hasDistinctOn (q : Query) : Bool := q.unmk.hasDistinctOn
def Query.hasAggs (q : Query) : Bool := q.unmk.hasAggs
def Query.hasSubLinks (q : Query) : Bool := q.unmk.hasSubLinks
def Query.hasRecursive (q : Query) : Bool := q.unmk.hasRecursive
def Query.mergeActionList (q : Query) : List MergeAction := q.unmk.mergeActionList
def Query.resultRelation (q : Query) : Nat := q.unmk.resultRelation

/-- `make_ands_explicit`: a single qual stays bare, several are ANDed. -/
def makeAndsExplicit (l : List Expr) : Option Expr :=
  match l with
  | [] => none
  | [x] => some x
  | xs => some (.boolAndE xs)

/-- `make_ands_implicit` on a (possibly absent) qual tree. -/
def makeAndsImplicit (q : Option Expr) : List Expr :=
  match q with
  | none => []
  | some (.boolAndE xs) => xs
  | some x => [x]

/-- Replace the head of a list, if any (the C pattern
`TargetEntry *firstEntry = linitial(...); firstEntry->expr = ...`). -/
def replaceHead {α : Type} (l : List α) (f : α → α) : List α :=
  match l with
  | [] => []
  | x :: xs => f x :: xs

/-- A fallback target entry standing for the C behaviour on `linitial`
of a list the code assumes non-empty. -/
def dummyTargetEntry : TargetEntry :=
  { expr := .constBson .eod, resno := 1, resname := "" }

/-- Columns of the mongo data tables, as in the C attribute-number
constants (`MONGO_DATA_TABLE_*_VAR_ATTR_NUMBER`). -/
def mongoDataTableShardKeyValueAttrNumber : Nat := 1

def mongoDataTableObjectIdAttrNumber : Nat := 2

def mongoDataTableDocumentAttrNumber : Nat := 3

/-! ## Compilation context and external collaborators -/

/-- `IndexDetails` restricted to the fields the `$merge` validation reads
(`indexSpec.indexUnique`, `indexSpec.indexPFEDocument`,
`indexSpec.indexKeyDocument`). -/
structure IndexDetails where
  indexUnique : Bool
  indexPFEDocument : Option BsonValue := none
  indexKeyDocument : List (String × BsonValue) := []
  deriving Repr

/-- A `MongoCollection` binding from the catalog (external collaborator,
read-only input of the compiler). -/
structure MongoCollection where
  collectionId : Nat
  tableName : String := ""
  shardKey : Option BsonValue := none
  viewDefinition : Option BsonValue := none
  indexes : List IndexDetails := []
  mongoDataCreationTimeVarAttrNumber : Nat := 4
  deriving Repr

/-- `AggregationPipelineBuildContext`. -/
structure AggregationPipelineBuildContext where
  nestedPipelineLevel : Nat := 0
  stageNum : Nat := 0
  numNestedLevels : Nat := 0
  requiresSubQuery : Bool := false
  requiresSubQueryAfterProject : Bool := false
  expandTargetList : Bool := false
  sortSpec : BsonValue := .eod
  databaseName : String := ""
  namespaceName : String := ""
  mongoCollection : Option MongoCollection := none

/-- The ambient process state a compile runs in: GUCs, transaction state,
the catalog (`resolve(db, name) -> CollectionBinding | NotFound`), the
collection-creation hook, and the current timestamp
(`GetCurrentTimestamp`, read when building the `$merge` insert action). -/
structure CompileEnv where
  now : Int
  enableMergeStage : Bool := true
  clusterVersionAtLeast119 : Bool := true
  enableMergeTargetCreation : Bool := true
  inTransactionBlock : Bool := false
  catalog : String → String → Option MongoCollection := fun _ _ => none
  createColl : String → String → MongoCollection := fun _ _ => { collectionId := 1 }

/-- The recursive stage dispatcher `MutateQueryWithPipeline` is defined
outside the embedded files; stage handlers receive it as a function
argument of this type. -/
abbrev PipelineMutator :=
  Query → BsonValue → AggregationPipelineBuildContext →
    Except MongoCode (Query × AggregationPipelineBuildContext)

/-! ## Spec-modelled common helpers (their C definitions are outside the
two embedded files) -/

/-- Modelled from the spec: `MigrateQueryToSubQuery`, the
"subquery-migration helper that canonicalizes a plan back to one output
column" (spec section 2); it wraps the plan in a subquery re-projecting
its first output column only, unless the context's `expandTargetList`
flag asks for all columns (set by `$merge`), and accounts for the added
scope level in the context's `numNestedLevels`. -/
def migrateQueryToSubQuery (q : Query)
    (ctx : AggregationPipelineBuildContext) :
    Query × AggregationPipelineBuildContext :=
  let keep := if ctx.expandTargetList then q.targetList else q.targetList.take 1
  let newTargetList : List TargetEntry :=
    keep.map (fun te =>
      { expr := .varE 1 te.resno 0, resno := te.resno, resname := te.resname,
        resjunk := te.resjunk })
  let newQuery : Query := .mk
    { querySource := q.querySource,
      targetList := newTargetList,
      rtable := [.subqueryRte q "migrated_subquery" (keep.map (fun te => te.resname))
                   false true],
      fromList := [.rtref 1] }
  (newQuery,
   { ctx with numNestedLevels := ctx.numNestedLevels + 1,
              requiresSubQuery := false,
              requiresSubQueryAfterProject := false,
              expandTargetList := false })

/-- Modelled from the spec: `MakeSubQueryRte` (common helper outside the
embedded files) builds a subquery RTE over a completed plan, exposing all
its columns or only the first. -/
def makeSubQueryRte (q : Query) (stageNum pipelineDepth : Nat)
    (namePre : String) (includeAllColumns : Bool) : Rte :=
  let cols := q.targetList.map (fun te => te.resname)
  .subqueryRte q (namePre ++ "_" ++ toString stageNum ++ "_" ++ toString pipelineDepth)
    (if includeAllColumns then cols else cols.take 1) false true

/-- Modelled from the spec: `GenerateBaseTableQuery` resolves the named
collection through the catalog, records the binding in the context, and
returns a base-relation scan exposing the single `document` column. -/
def generateBaseTableQuery (env : CompileEnv) (dbName collName : String)
    (ctx : AggregationPipelineBuildContext) :
    Query × AggregationPipelineBuildContext :=
  let binding := env.catalog dbName collName
  let tableName := match binding with
    | some c => c.tableName
    | none => "nonexistent_data_table"
  let q : Query := .mk
    { targetList := [{ expr := .varE 1 mongoDataTableDocumentAttrNumber 0,
                       resno := 1, resname := "document" }],
      rtable := [.relationRte tableName
                   ["shard_key_value", "object_id", "document", "creation_time"]],
      fromList := [.rtref 1] }
  (q, { ctx with mongoCollection := binding })

/-- Modelled from the spec: `GenerateBaseAgnosticQuery` builds the base
plan of a collection-agnostic pipeline (a one-row scan of the empty
document), again exposing the single `document` column. -/
def generateBaseAgnosticQuery (ctx : AggregationPipelineBuildContext) :
    Query × AggregationPipelineBuildContext :=
  let q : Query := .mk
    { targetList := [{ expr := .constBson (.doc []), resno := 1,
                       resname := "document" }] }
  (q, ctx)

/-- Modelled from the spec: `HandleMatch` (the `$match` stage compiler,
defined outside the embedded files) restricts the plan by the given
query document; used by `$graphLookup` for `restrictSearchWithMatch`. -/
def handleMatchModel (matchSpec : BsonValue) (q : Query) : Query :=
  let firstEntry := q.targetList.headD dummyTargetEntry
  let matchQual : Expr := .fnCall "bson_dollar_query_match"
    [firstEntry.expr, .constBson matchSpec] false
  .mk { q.unmk with
        quals := makeAndsExplicit (makeAndsImplicit q.quals ++ [matchQual]) }

/-! ## Stage-argument parsing (translated from
`bson_aggregation_nested_pipeline.c` / `bson_aggregation_output_pipeline.c`) -/

/-- `GetPipelineStage`: a pipeline element must be a document with exactly
one field; returns that (stage name, stage value) pair. -/
def getPipelineStage (v : BsonValue) : Except MongoCode (String × BsonValue) :=
  match v with
  | .doc fields =>
    match fields with
    | [p] => .ok p
    | _ => .error .location40323
  | _ => .error .badValue

/-- `LookupArgs`. -/
structure LookupArgs where
  from_ : String := ""
  lookupAs : String := ""
  foreignField : String := ""
  localField : String := ""
  pipeline : BsonValue := .eod
  hasLookupMatch : Bool := false

/-- The per-stage loop body of `ParseLookupStage`. -/
def parseLookupField (args : LookupArgs) (key : String) (value : BsonValue) :
    Except MongoCode LookupArgs :=
  if key = "as" then
    match value with
    | .utf8 s => .ok { args with lookupAs := s }
    | _ => .error .failedToParse
  else if key = "foreignField" then
    match value with
    | .utf8 s => .ok { args with foreignField := s }
    | _ => .error .failedToParse
  else if key = "from" then
    match value with
    | .utf8 s => .ok { args with from_ := s }
    | _ => .error .location40321
  else if key = "let" then
    .error .commandNotSupported
  else if key = "localField" then
    match value with
    | .utf8 s => .ok { args with localField := s }
    | _ => .error .failedToParse
  else if key = "pipeline" then
    match value with
    | .arr stages =>
      (stages.foldlM (fun (_ : Unit) stage => do
        let (stageName, _) ← getPipelineStage stage
        if stageName = "$out" ∨ stageName = "$merge" then
          .error .location51047
        else
          .ok ()) ()) >>= fun _ =>
      .ok { args with pipeline := .arr stages }
    | _ => .error .typeMismatch
  else
    .error .failedToParse

/-- `ParseLookupStage`. -/
def parseLookupStage (existingValue : BsonValue) : Except MongoCode LookupArgs :=
  match existingValue with
  | .doc fields => do
    let args ← fields.foldlM (fun args (p : String × BsonValue) =>
      parseLookupField args p.1 p.2) {}
    if args.lookupAs = "" then
      .error .failedToParse
    else
      let isPipelineLookup := args.pipeline matches BsonValue.arr _
      if args.from_ = "" ∧ ¬isPipelineLookup then
        .error .failedToParse
      else if ¬isPipelineLookup ∧ (args.foreignField = "" ∨ args.localField = "") then
        .error .failedToParse
      else if (args.foreignField = "") ≠ (args.localField = "") then
        .error .failedToParse
      else if args.foreignField ≠ "" then
        .ok { args with hasLookupMatch := true }
      else
        .ok args
  | _ => .error .location40319

/-- `GraphLookupArgs` (with `fromSpecified` carried alongside, as the C
parse loop tracks it in a local). -/
structure GraphLookupArgs where
  inputExpression : BsonValue := .eod
  fromCollection : String := ""
  connectFromField : String := ""
  connectToField : String := ""
  asField : String := ""
  maxDepth : Int := 2147483647
  depthField : String := ""
  restrictSearch : BsonValue := .eod
  connectFromFieldExpression : BsonValue := .eod
  fromSpecified : Bool := false

/-- The per-stage loop body of `ParseGraphLookupStage`. -/
def parseGraphLookupField (args : GraphLookupArgs) (key : String)
    (value : BsonValue) : Except MongoCode GraphLookupArgs :=
  if key = "as" then
    match value with
    | .utf8 s =>
      if s.length > 0 ∧ s.data.headD ' ' = '$' then .error .location16410
      else .ok { args with asField := s }
    | _ => .error .location40103
  else if key = "startWith" then
    .ok { args with inputExpression := value }
  else if key = "connectFromField" then
    match value with
    | .utf8 s =>
      if s.length > 0 ∧ s.data.headD ' ' = '$' then .error .location16410
      else .ok { args with connectFromField := s }
    | _ => .error .location40103
  else if key = "connectToField" then
    match value with
    | .utf8 s =>
      if s.length > 0 ∧ s.data.headD ' ' = '$' then .error .location16410
      else .ok { args with connectToField := s }
    | _ => .error .location40103
  else if key = "from" then
    match value with
    | .utf8 s => .ok { args with fromCollection := s, fromSpecified := true }
    | _ => .error .failedToParse
  else if key = "maxDepth" then
    if ¬bsonValueIsNumber value then .error .location40100
    else
      match value with
      | .int32 n => if n < 0 then .error .location40101 else .ok { args with maxDepth := n }
      | _ => .error .location40102
  else if key = "depthField" then
    match value with
    | .utf8 s =>
      if s.length > 0 ∧ s.data.headD ' ' = '$' then .error .location16410
      else .ok { args with depthField := s }
    | _ => .error .location40103
  else if key = "restrictSearchWithMatch" then
    match value with
    | .doc fields => .ok { args with restrictSearch := .doc fields }
    | _ => .error .location40185
  else
    .error .location40104

/-- `ParseGraphLookupStage`. -/
def parseGraphLookupStage (existingValue : BsonValue) :
    Except MongoCode GraphLookupArgs :=
  match existingValue with
  | .doc fields => do
    let args ← fields.foldlM (fun args (p : String × BsonValue) =>
      parseGraphLookupField args p.1 p.2) {}
    if args.asField = "" then .error .location40105
    else if ¬args.fromSpecified then .error .failedToParse
    else if args.fromCollection = "" then .error .invalidNamespace
    else if args.inputExpression matches BsonValue.eod then .error .location40105
    else if args.connectFromField = "" ∨ args.connectToField = "" then
      .error .location40105
    else
      .ok { args with
            connectFromFieldExpression := .utf8 ("$" ++ args.connectFromField) }
  | _ => .error .failedToParse

/-- `ParseUnionWith`: collection name and optional pipeline. -/
def parseUnionWith (existingValue : BsonValue) :
    Except MongoCode (String × BsonValue) :=
  match existingValue with
  | .utf8 s => .ok (s, .eod)
  | .doc fields => do
    let st ← fields.foldlM
      (fun (st : String × BsonValue) (p : String × BsonValue) =>
        if p.1 = "coll" then
          match p.2 with
          | .utf8 s => .ok (s, st.2)
          | _ => .error .typeMismatch
        else if p.1 = "pipeline" then
          match p.2 with
          | .arr xs => .ok (st.1, .arr xs)
          | _ => .error .typeMismatch
        else
          .error .unknownBsonField) ("", .eod)
    if st.1 = "" then .error .commandNotSupported else .ok st
  | _ => .error .failedToParse

/-- `ValidateUnionWithPipeline`: `$out` and `$merge` are rejected inside
a `$unionWith` sub-pipeline. -/
def validateUnionWithPipeline (pipeline : BsonValue) : Except MongoCode Unit :=
  match pipeline with
  | .arr stages =>
    stages.foldlM (fun (_ : Unit) stage => do
      let (stageName, _) ← getPipelineStage stage
      if stageName = "$out" then .error .location31441
      else if stageName = "$merge" then .error .location31441
      else .ok ()) ()
  | _ => .ok ()

/-- The stage names `ValidateFacet` rejects inside a branch. -/
def bannedFacetStages : List String :=
  ["$collStats", "$facet", "$geoNear", "$indexStats", "$out", "$merge",
   "$planCacheStats", "$search"]

/-- The per-branch validation of `ValidateFacet`. -/
def validateFacetBranch (pipeline : BsonValue) : Except MongoCode Unit :=
  match pipeline with
  | .arr stages =>
    stages.foldlM (fun (_ : Unit) stage => do
      let (stageName, _) ← getPipelineStage stage
      if bannedFacetStages.contains stageName then .error .location40600
      else .ok ()) ()
  | _ => .error .typeMismatch

/-- `ValidateFacet`: the spec must be a document of named branches, each
an array of allowed stages, and non-empty; returns the branch count. -/
def validateFacet (facetValue : BsonValue) : Except MongoCode Nat :=
  match facetValue with
  | .doc fields => do
    let numStages ← fields.foldlM (fun (n : Nat) (p : String × BsonValue) => do
      validateFacetBranch p.2
      .ok (n + 1)) 0
    if numStages = 0 then .error .location40169 else .ok numStages
  | _ => .error .location15947

/-! ## Plan-construction helpers (translated from
`bson_aggregation_nested_pipeline.c`) -/

/-- `MakeBsonSetOpStatement`: a single-column UNION ALL node. -/
def makeBsonSetOpStatement (larg rarg : SetOpNode) : SetOpNode :=
  .setOpStmt true 1 larg rarg

/-- `UpdateCteRte`: point a CTE RTE at the given CTE, refreshing the
column names from the CTE query's target list. -/
def updateCteRte (aliasName : String) (ctelevelsup : Nat) (selfReference : Bool)
    (baseCte : Cte) : Rte :=
  .cteRte baseCte.ctename ctelevelsup aliasName
    (baseCte.ctequery.targetList.map (fun te => te.resname)) selfReference

/-- `CreateCteRte`: an RTE named `prefix_stage_N` selecting from a CTE. -/
def createCteRte (baseCte : Cte) (namePre : String) (stageNum levelsUp : Nat) :
    Rte :=
  updateCteRte (namePre ++ "_stage_" ++ toString stageNum) levelsUp false baseCte

/-- `CreateCteSelectQuery`: a query selecting every column of a CTE. -/
def createCteSelectQuery (baseCte : Cte) (namePre : String)
    (stageNum levelsUp : Nat) : Query :=
  let baseQuery := baseCte.ctequery
  let upperTargetList : List TargetEntry :=
    baseQuery.targetList.map (fun te =>
      { expr := .varE 1 te.resno 0, resno := te.resno, resname := te.resname })
  .mk { querySource := baseQuery.querySource,
        targetList := upperTargetList,
        rtable := [createCteRte baseCte namePre stageNum levelsUp],
        fromList := [.rtref 1] }

/-- `CreateFunctionSelectorQuery`: a query selecting from a set-returning
function expression. -/
def createFunctionSelectorQuery (funcExpr : Expr) (namePre : String)
    (subStageNum : Nat) (querySource : String) : Query :=
  .mk { querySource := querySource,
        targetList := [{ expr := .varE 1 1 0, resno := 1, resname := "funcName" }],
        rtable := [.functionRte funcExpr
                     (namePre ++ "_substage_" ++ toString subStageNum)
                     ["lookup_unwind"]],
        fromList := [.rtref 1] }

/-- `GetArrayAggCoalesce`: `COALESCE(expr, '{ "field": [] }'::bson)`. -/
def getArrayAggCoalesce (innerExpr : Expr) (fieldPath : String) : Expr :=
  .coalesceE [innerExpr, .constBson (.doc [(fieldPath, .arr [])])]

/-- `AddBsonArrayAggFunction`: wrap the first projector in
`COALESCE(bson_array_agg(expr, 'field'), ...)`, optionally migrating the
query to a subquery first. -/
def addBsonArrayAggFunction (baseQuery : Query)
    (ctx : AggregationPipelineBuildContext) (fieldPath : String)
    (migrateToSubQuery : Bool) : Query × AggregationPipelineBuildContext :=
  let (modifiedQuery, ctx) :=
    if migrateToSubQuery then migrateQueryToSubQuery baseQuery ctx
    else (baseQuery, ctx)
  let newTargetList := replaceHead modifiedQuery.targetList (fun firstEntry =>
    { firstEntry with
      expr := getArrayAggCoalesce
        (.aggFn "bson_array_agg" [firstEntry.expr, .constText fieldPath])
        fieldPath })
  (.mk { modifiedQuery.unmk with targetList := newTargetList, hasAggs := true },
   ctx)

/-- `AddBsonObjectAggFunction`: migrate to a subquery and wrap the first
projector in `bson_object_agg(expr)`. -/
def addBsonObjectAggFunction (baseQuery : Query)
    (ctx : AggregationPipelineBuildContext) :
    Query × AggregationPipelineBuildContext :=
  let (modifiedQuery, ctx) := migrateQueryToSubQuery baseQuery ctx
  let newTargetList := replaceHead modifiedQuery.targetList (fun firstEntry =>
    { firstEntry with expr := .aggFn "bson_object_agg" [firstEntry.expr] })
  (.mk { modifiedQuery.unmk with targetList := newTargetList, hasAggs := true },
   ctx)

/-- `HandleInternalInhibitOptimization`: materialize the current plan
behind an always-materialized CTE. -/
def handleInternalInhibitOptimization (query : Query)
    (context : AggregationPipelineBuildContext) : Query :=
  let baseCte : Cte :=
    { ctename := "internalinhibitoptimization", ctequery := query,
      ctematerializedAlways := true }
  let q := createCteSelectQuery baseCte "inhibit" context.stageNum 0
  .mk { q.unmk with cteList := [baseCte] }

/-! ## Fuel-bounded plan walkers

The C code mutates shared plan nodes in place after linking them into a
larger tree (`origTableEntry->ctelevelsup = ...`,
`rightRteCte->ctelevelsup += ...`, `rightOutput->varlevelsup += ...`,
`query_tree_walker(...)`).  With value semantics those late writes become
bounded tree rewrites; the fuel argument bounds the recursion depth (the
walks terminate in C because plans are finite trees). -/

mutual

/-- Rewrite every RTE of a plan tree with `g`, recursing into subqueries,
CTE bodies, and sublinks. -/
def mapRtesQuery (fuel : Nat) (g : Rte → Rte) (q : Query) : Query :=
  match fuel with
  | 0 => q
  | fuel + 1 =>
    .mk { q.unmk with
          targetList := q.unmk.targetList.map (fun te =>
            { te with expr := mapRtesExpr fuel g te.expr }),
          rtable := q.unmk.rtable.map (fun rte => mapRtesRte fuel g rte),
          quals := q.unmk.quals.map (fun e => mapRtesExpr fuel g e),
          cteList := q.unmk.cteList.map (fun cte =>
            { cte with ctequery := mapRtesQuery fuel g cte.ctequery }) }

/-- `mapRtesQuery` on a single RTE. -/
def mapRtesRte (fuel : Nat) (g : Rte → Rte) (rte : Rte) : Rte :=
  match fuel with
  | 0 => g rte
  | fuel + 1 =>
    match rte with
    | .subqueryRte sub a c l i => g (.subqueryRte (mapRtesQuery fuel g sub) a c l i)
    | other => g other

/-- `mapRtesQuery` on an expression. -/
def mapRtesExpr (fuel : Nat) (g : Rte → Rte) (e : Expr) : Expr :=
  match fuel with
  | 0 => e
  | fuel + 1 =>
    match e with
    | .fnCall n args r => .fnCall n (args.map (mapRtesExpr fuel g)) r
    | .aggFn n args => .aggFn n (args.map (mapRtesExpr fuel g))
    | .coalesceE args => .coalesceE (args.map (mapRtesExpr fuel g))
    | .opE n l r => .opE n (mapRtesExpr fuel g l) (mapRtesExpr fuel g r)
    | .scalarArrayOpAny n l r =>
      .scalarArrayOpAny n (mapRtesExpr fuel g l) (mapRtesExpr fuel g r)
    | .boolAndE args => .boolAndE (args.map (mapRtesExpr fuel g))
    | .subLinkE sub => .subLinkE (mapRtesQuery fuel g sub)
    | other => other

end

/-- Default walker fuel; ample for every plan the embedding builds. -/
def walkerFuel : Nat := 64

/-- The late write `origTableEntry->ctelevelsup = levels` on the CTE RTE
of a facet branch: set the level of every CTE RTE with the given name. -/
def setCteLevelsUp (ctename : String) (levels : Nat) (q : Query) : Query :=
  mapRtesQuery walkerFuel (fun rte =>
    match rte with
    | .cteRte n _ a c s => if n = ctename then .cteRte n levels a c s else rte
    | other => other) q

/-- The late write `rightRteCte->ctelevelsup += delta` in
`ProcessLookupCore`: add to the level of every CTE RTE with the name. -/
def addCteLevelsUp (ctename : String) (delta : Nat) (q : Query) : Query :=
  mapRtesQuery walkerFuel (fun rte =>
    match rte with
    | .cteRte n lv a c s => if n = ctename then .cteRte n (lv + delta) a c s else rte
    | other => other) q

/-- The late write `rightOutput->varlevelsup += delta` on the var inside
the `bson_lookup_unwind` function RTE of the post-join sub-pipeline. -/
def bumpLookupUnwindVarLevel (delta : Nat) (q : Query) : Query :=
  mapRtesQuery walkerFuel (fun rte =>
    match rte with
    | .functionRte (.fnCall "bson_lookup_unwind" ((.varE a b lv) :: rest) r) al c =>
      .functionRte (.fnCall "bson_lookup_unwind" ((.varE a b (lv + delta)) :: rest) r)
        al c
    | other => other) q

/-! ## `$facet`, `$unionWith`, `$documents` -/

/-- The flip-flop SetOperationStmt insertion loop of
`BuildFacetUnionAllQuery`: state is (left slot, right slot, insertLeft). -/
def facetSetOpFold (refs : List SetOpNode) :
    Option SetOpNode × Option SetOpNode × Bool :=
  refs.foldl (fun (st : Option SetOpNode × Option SetOpNode × Bool) r =>
    match st with
    | (none, rr, il) => (some r, rr, il)
    | (some l, none, il) => (some l, some r, il)
    | (some l, some rr, true) => (some (makeBsonSetOpStatement l r), some rr, false)
    | (some l, some rr, false) => (some l, some (makeBsonSetOpStatement rr r), true))
    (none, none, false)

/-- The named branches of a `$facet` document value. -/
def bsonDocFields : BsonValue → List (String × BsonValue)
  | .doc fs => fs
  | _ => []

/-- `BuildFacetUnionAllQuery`: the N-branch UNION ALL (or single-branch
fast path) over the shared facet base CTE. -/
def buildFacetUnionAllQuery (mutate : PipelineMutator) (numStages : Nat)
    (facetValue : BsonValue) (baseCte : Cte) (querySource : String)
    (databaseName : String) (sortSpec : BsonValue) : Except MongoCode Query :=
  let fields := bsonDocFields facetValue
  if numStages = 1 then do
    let singleElement := fields.headD ("", .eod)
    let baseQuery := createCteSelectQuery baseCte "facetsub" numStages 0
    let nestedContext : AggregationPipelineBuildContext :=
      { nestedPipelineLevel := 1, databaseName := databaseName,
        sortSpec := sortSpec }
    let mq ← mutate baseQuery singleElement.2 nestedContext
    let am := addBsonArrayAggFunction mq.1 mq.2 singleElement.1 true
    .ok (setCteLevelsUp baseCte.ctename (am.2.numNestedLevels + 1) am.1)
  else do
    let st ← fields.foldlM
      (fun (st : List Rte × List SetOpNode × Option (Query × Nat) × Nat)
           (p : String × BsonValue) => do
        let rtable := st.1
        let firstInner := st.2.2.1
        let nestedStage := st.2.2.2
        let baseLevelsUp := 2
        let baseQuery := createCteSelectQuery baseCte "facetsub" nestedStage baseLevelsUp
        let nestedContext : AggregationPipelineBuildContext :=
          { nestedPipelineLevel := 1, databaseName := databaseName,
            sortSpec := sortSpec }
        let mq ← mutate baseQuery p.2 nestedContext
        let am := addBsonArrayAggFunction mq.1 mq.2 p.1 true
        let innerQuery := setCteLevelsUp baseCte.ctename
          (am.2.numNestedLevels + baseLevelsUp) am.1
        let rtable := rtable ++ [makeSubQueryRte innerQuery nestedStage 0 "facetinput" false]
        let refIdx := rtable.length
        let firstInner := match firstInner with
          | none => some (innerQuery, refIdx)
          | some fi => some fi
        .ok (rtable, st.2.1 ++ [SetOpNode.setOpRef refIdx], firstInner, nestedStage + 1))
      ([], [], none, 1)
    let so := facetSetOpFold st.2.1
    let setOp : SetOpNode :=
      .setOpStmt true 1 (so.1.getD (.setOpRef 1)) (so.2.1.getD (.setOpRef 2))
    let fi := st.2.2.1.getD (baseCte.ctequery, 1)
    let leftMostTargetEntry := fi.1.targetList.headD dummyTargetEntry
    .ok (.mk { querySource := querySource,
               hasAggs := true,
               rtable := st.1,
               setOperations := some setOp,
               targetList := [{ expr := .varE fi.2
                                  leftMostTargetEntry.resno 0,
                                resno := leftMostTargetEntry.resno,
                                resname := leftMostTargetEntry.resname }] })

/-- `HandleFacet`. -/
def handleFacet (mutate : PipelineMutator) (existingValue : BsonValue)
    (query : Query) (context : AggregationPipelineBuildContext) :
    Except MongoCode (Query × AggregationPipelineBuildContext) :=
  if context.nestedPipelineLevel > 0 then .error .internalError
  else do
    let qc :=
      if query.targetList.length > 1 then migrateQueryToSubQuery query context
      else (query, context)
    let numStages ← validateFacet existingValue
    let baseCte : Cte := { ctename := "facet_base", ctequery := qc.1 }
    let finalQuery ← buildFacetUnionAllQuery mutate numStages existingValue baseCte
      qc.1.querySource qc.2.databaseName qc.2.sortSpec
    let fq := addBsonObjectAggFunction finalQuery qc.2
    .ok (.mk { fq.1.unmk with cteList := [baseCte] }, fq.2)

/-- `HandleUnionWith`. -/
def handleUnionWith (env : CompileEnv) (mutate : PipelineMutator)
    (existingValue : BsonValue) (query : Query)
    (context : AggregationPipelineBuildContext) :
    Except MongoCode (Query × AggregationPipelineBuildContext) := do
  let leftQuery := query
  let (collectionFrom, pipelineValue) ← parseUnionWith existingValue
  let subPipelineContext : AggregationPipelineBuildContext :=
    { nestedPipelineLevel := context.nestedPipelineLevel + 1,
      databaseName := context.databaseName }
  let rightQuery ←
    match pipelineValue with
    | .eod =>
      .ok (generateBaseTableQuery env context.databaseName collectionFrom
            subPipelineContext).1
    | pv => do
      let grs :=
        generateBaseTableQuery env context.databaseName collectionFrom
          subPipelineContext
      validateUnionWithPipeline pv
      let mrq ← mutate grs.1 pv grs.2
      .ok mrq.1
  let leftRte := makeSubQueryRte leftQuery context.stageNum 0 "unionLeft" false
  let rightRte := makeSubQueryRte rightQuery context.stageNum 0 "unionRight" false
  let leftMostTargetEntry := leftQuery.targetList.headD dummyTargetEntry
  let modifiedQuery : Query := .mk
    { querySource := query.querySource,
      rtable := [leftRte, rightRte],
      setOperations := some (makeBsonSetOpStatement (.setOpRef 1) (.setOpRef 2)),
      targetList := [{ expr := .varE 1 leftMostTargetEntry.resno 0,
                       resno := leftMostTargetEntry.resno,
                       resname := leftMostTargetEntry.resname }] }
  .ok (migrateQueryToSubQuery modifiedQuery context)

/-- `HandleDocumentsStage`.  The scalar expression evaluator
(`EvaluateExpressionToWriter`, an external collaborator) is received as
`evalExpr`; `none` stands for an evaluation that wrote no field. -/
def handleDocumentsStage (evalExpr : BsonValue → Option BsonValue)
    (existingValue : BsonValue) (query : Query)
    (context : AggregationPipelineBuildContext) :
    Except MongoCode (Query × AggregationPipelineBuildContext) :=
  if query.rtable.length ≠ 0 ∨ context.stageNum ≠ 0 then .error .badValue
  else
    match evalExpr existingValue with
    | some (.arr elems) =>
      let targetBson : BsonValue := .doc [("$documents", .arr elems)]
      let resultExpr : Expr := .fnCall "bson_lookup_unwind"
        [.constBson targetBson, .constText "$documents"] true
      let rte : Rte := .functionRte resultExpr "documents" ["documents"]
      .ok (.mk { query.unmk with
                 targetList := [{ expr := .varE 1 1 0, resno := 1,
                                  resname := "documents_aggregate" }],
                 rtable := [rte],
                 fromList := [.rtref 1],
                 quals := none },
           { context with requiresSubQuery := true })
    | _ => .error .location5858203

/-! ## `$lookup` -/

/-- `MaximumLookupPipelineDepth`. -/
def maximumLookupPipelineDepth : Nat := 20

/-- `CanInlineLookupStageLookup`: a nested `$lookup` stage can be inlined
as long as its `as` path does not intersect the outer local-field path
(prefix test in both directions). -/
def canInlineLookupStageLookup (lookupStage : BsonValue) (lookupPath : String) :
    Except MongoCode Bool := do
  let nestedLookupArgs ← parseLookupStage lookupStage
  if svStartsWith nestedLookupArgs.lookupAs lookupPath ∨
      svStartsWith lookupPath nestedLookupArgs.lookupAs then
    .ok false
  else
    .ok true

/-- The paths a pipeline stage writes are a static syntactic property
supplied by the external expression evaluator (spec section 6); the
embedding receives it as a function from the stage document to the
written paths. -/
abbrev StageWriteSet := BsonValue → List String

/-- Whether one stage's writes intersect the guarded path, with the
both-directions prefix test of `CanInlineLookupStageLookup`. -/
def stageWriteConflicts (w : StageWriteSet) (stage : BsonValue)
    (lookupPath : String) : Bool :=
  (w stage).any (fun p => svStartsWith p lookupPath || svStartsWith lookupPath p)

/-- Modelled from the spec: `CanInlineLookupPipeline` (defined outside the
embedded files) checks that no stage of the nested pipeline writes to the
guarded field path. -/
def canInlineLookupPipeline (w : StageWriteSet) (pipeline : BsonValue)
    (lookupPath : String) : Bool :=
  match pipeline with
  | .arr stages => stages.all (fun st => !stageWriteConflicts w st lookupPath)
  | _ => true

/-- `CanInlineInnerLookupPipeline`. -/
def canInlineInnerLookupPipeline (w : StageWriteSet) (lookupArgs : LookupArgs) :
    Bool :=
  if lookupArgs.from_ = "" then true
  else if ¬lookupArgs.hasLookupMatch then true
  else
    match lookupArgs.pipeline with
    | .eod => false
    | pipeline =>
      let localFieldValue := lookupArgs.localField
      let pre := stringViewFindPre localFieldValue '.'
      let localFieldValue := if pre.length ≠ 0 then pre else localFieldValue
      canInlineLookupPipeline w pipeline localFieldValue

/-- Mark a subquery RTE lateral (`rightTree->lateral = true`). -/
def rteSetLateral (r : Rte) : Rte :=
  match r with
  | .subqueryRte q a c _ i => .subqueryRte q a c true i
  | other => other

/-- `MakeBsonJoinVarsFromQuery`: per-column vars, names and attnos of a
query at the given range-table index, for the lookup join RTE. -/
def makeBsonJoinVars (queryIndex : Nat) (q : Query) :
    List Expr × List String × List Nat :=
  (q.targetList.map (fun te => ExprF.varE queryIndex te.resno 0),
   q.targetList.map (fun te => te.resname),
   q.targetList.map (fun te => te.resno))

/-- The join-branch right-side preparation of `ProcessLookupCore` (the
`lookupArgs->hasLookupMatch` arm), returning the finished right query,
the updated sub-pipeline context, and the possibly-cleared inline flag. -/
def processLookupJoinRight (mutate : PipelineMutator) (lookupArgs : LookupArgs)
    (isRightQueryAgnostic : Bool) (canInlineInnerPipeline : Bool)
    (leftFilterAttrNum : Nat) (leftFilterExprInput : Expr)
    (rightQuery : Query) (subCtx : AggregationPipelineBuildContext)
    (nestedPipelineLevel : Nat) :
    Except MongoCode
      (Query × AggregationPipelineBuildContext × Bool × Bool × Expr) := do
  let (rightQuery, subCtx) ←
    if isRightQueryAgnostic then mutate rightQuery lookupArgs.pipeline subCtx
    else .ok (rightQuery, subCtx)
  let canProcessForeignFieldAsDocumentId :=
    lookupArgs.foreignField == "_id" && !isRightQueryAgnostic
  let (rightQuery, canInlineInnerPipeline, canProcessForeignFieldAsDocumentId) :=
    if canProcessForeignFieldAsDocumentId && rightQuery.rtable.length == 1 &&
        rightQuery.targetList.length == 1 &&
        (match subCtx.mongoCollection with
         | some c => c.shardKey.isNone
         | none => false) then
      match rightQuery.rtable.headD (.relationRte "" []),
            (rightQuery.targetList.headD dummyTargetEntry).expr with
      | .relationRte _ _, .varE _ _ _ =>
        (.mk { rightQuery.unmk with
               targetList := rightQuery.targetList ++
                 [{ expr := .varE 1 mongoDataTableObjectIdAttrNumber 0,
                    resno := rightQuery.targetList.length + 1,
                    resname := "objectId" }] },
         false, true)
      | _, _ => (rightQuery, canInlineInnerPipeline, false)
    else (rightQuery, canInlineInnerPipeline, false)
  let rightTableExpr : Cte :=
    { ctename := "lookup_right_query", ctequery := rightQuery }
  let rightQuery := createCteSelectQuery rightTableExpr "lookup_right_query"
    nestedPipelineLevel 0
  let (rightQuery, subCtx) ←
    if canInlineInnerPipeline && !isRightQueryAgnostic &&
        !canProcessForeignFieldAsDocumentId then do
      let (rightQuery, subCtx) ← mutate rightQuery lookupArgs.pipeline subCtx
      if subCtx.requiresSubQuery then
        .ok (migrateQueryToSubQuery rightQuery subCtx)
      else
        .ok (rightQuery, subCtx)
    else .ok (rightQuery, subCtx)
  let rightQuals := makeAndsImplicit rightQuery.quals
  let currentRightEntry := rightQuery.targetList.headD dummyTargetEntry
  let matchLevelsUp := 1
  let (rightQuery, inClause) :=
    if canProcessForeignFieldAsDocumentId = true then
      let rightObjectIdEntry := (rightQuery.targetList.drop 1).headD dummyTargetEntry
      (.mk { rightQuery.unmk with targetList := [currentRightEntry] },
       ExprF.scalarArrayOpAny "bson_equal" rightObjectIdEntry.expr
         (.varE 1 leftFilterAttrNum matchLevelsUp))
    else
      (rightQuery,
       ExprF.fnCall "bson_dollar_lookup_join_filter"
         [currentRightEntry.expr, .varE 1 leftFilterAttrNum matchLevelsUp,
          .constText lookupArgs.foreignField] false)
  let rightQuery : Query :=
    .mk { rightQuery.unmk with
          quals := makeAndsExplicit (rightQuals ++ [inClause]) }
  let (rightQuery, subCtx) :=
    addBsonArrayAggFunction rightQuery subCtx lookupArgs.lookupAs false
  let rightQuery : Query := .mk { rightQuery.unmk with cteList := [rightTableExpr] }
  let rightQuery := addCteLevelsUp "lookup_right_query" subCtx.numNestedLevels
    rightQuery
  .ok (rightQuery, subCtx, canInlineInnerPipeline,
       canProcessForeignFieldAsDocumentId, leftFilterExprInput)

/-- The tail of `ProcessLookupCore` after both sides of the join are
prepared: builds the left CTE, the lateral right subquery, the join RTE,
the optional unwinding sub-select (uninlined pipelines) and the final
`bson_dollar_merge_documents` projection named `document`. -/
def buildLookupJoinQuery (mutate : PipelineMutator) (lookupArgs : LookupArgs)
    (querySource : String) (context subPipelineContext :
    AggregationPipelineBuildContext) (leftQuery rightQuery : Query)
    (canInlineInnerPipeline : Bool) :
    Except MongoCode (Query × AggregationPipelineBuildContext) := do
  let cteExpr : Cte :=
    { ctename := "lookupLeftCte_" ++ toString context.nestedPipelineLevel,
      ctequery := leftQuery }
  let leftTree := createCteRte cteExpr "lookup" 1 0
  let rightTree := rteSetLateral
    (makeSubQueryRte rightQuery 1 context.nestedPipelineLevel "lookupRight" true)
  let leftJoinVars := makeBsonJoinVars 1 leftQuery
  let rightJoinVars := makeBsonJoinVars 2 rightQuery
  let joinRte : Rte := .joinRte "lookup_join"
    (leftJoinVars.2.1 ++ rightJoinVars.2.1)
    (leftJoinVars.1 ++ rightJoinVars.1) leftJoinVars.2.2 rightJoinVars.2.2
  let leftOutput : Expr := .varE 1 1 0
  let (rightOutputExpr, hasSubLinksFlag) ←
    if (lookupArgs.pipeline matches BsonValue.eod) = false ∧
        ¬canInlineInnerPipeline then do
      let funcExpr : Expr := .fnCall "bson_lookup_unwind"
        [.varE 2 1 0, .constText lookupArgs.lookupAs] true
      let subSelectQuery := createFunctionSelectorQuery funcExpr
        "lookup_subpipeline" context.nestedPipelineLevel querySource
      let projectorQueryContext : AggregationPipelineBuildContext :=
        { nestedPipelineLevel := context.nestedPipelineLevel + 1,
          databaseName := subPipelineContext.databaseName,
          mongoCollection := subPipelineContext.mongoCollection }
      let (subSelectQuery, projectorQueryContext) ←
        mutate subSelectQuery lookupArgs.pipeline projectorQueryContext
      let projectorQueryContext :=
        if subSelectQuery.targetList.length > 1 then
          { projectorQueryContext with requiresSubQuery := true }
        else projectorQueryContext
      let (subSelectQuery, projectorQueryContext) :=
        addBsonArrayAggFunction subSelectQuery projectorQueryContext
          lookupArgs.lookupAs projectorQueryContext.requiresSubQuery
      let subSelectQuery := bumpLookupUnwindVarLevel
        (projectorQueryContext.numNestedLevels + 1) subSelectQuery
      .ok (ExprF.subLinkE subSelectQuery, true)
    else
      .ok (ExprF.varE 2 1 0, false)
  let addFields : Expr := .fnCall "bson_dollar_merge_documents"
    [leftOutput, rightOutputExpr] false
  let lookupQuery : Query := .mk
    { querySource := querySource,
      cteList := [cteExpr],
      rtable := [leftTree, rightTree, joinRte],
      fromList := [.joinItem 3 (.rtref 1) (.rtref 2) (.constBool true)],
      hasSubLinks := hasSubLinksFlag,
      targetList := [{ expr := addFields, resno := 1, resname := "document" }] }
  .ok (lookupQuery, { context with requiresSubQuery := true })

/-- `ProcessLookupCore`: the JOIN building logic of `$lookup`. -/
def processLookupCore (env : CompileEnv) (mutate : PipelineMutator)
    (w : StageWriteSet) (query : Query)
    (context : AggregationPipelineBuildContext) (lookupArgs : LookupArgs) :
    Except MongoCode (Query × AggregationPipelineBuildContext) := do
  let qc :=
    if query.targetList.length > 1 then migrateQueryToSubQuery query context
    else (query, context)
  let query := qc.1
  let context := { qc.2 with numNestedLevels := qc.2.numNestedLevels + 1 }
  let leftQuery := query
  let subPipelineContext : AggregationPipelineBuildContext :=
    { nestedPipelineLevel := context.nestedPipelineLevel + 1,
      databaseName := context.databaseName }
  let isRightQueryAgnostic := lookupArgs.from_ = ""
  let rqp :=
    if isRightQueryAgnostic then generateBaseAgnosticQuery subPipelineContext
    else generateBaseTableQuery env context.databaseName lookupArgs.from_
      subPipelineContext
  let rightQuery := rqp.1
  let subPipelineContext := rqp.2
  let canInlineInnerPipeline := canInlineInnerLookupPipeline w lookupArgs
  let (leftQuery, rightQuery, subPipelineContext, canInlineInnerPipeline) ←
    if ¬lookupArgs.hasLookupMatch then do
      let (rightQuery, subPipelineContext) ←
        mutate rightQuery lookupArgs.pipeline subPipelineContext
      let (rightQuery, subPipelineContext) :=
        addBsonArrayAggFunction rightQuery subPipelineContext lookupArgs.lookupAs
          (subPipelineContext.requiresSubQuery ∨
           subPipelineContext.requiresSubQueryAfterProject)
      .ok (leftQuery, rightQuery, subPipelineContext, canInlineInnerPipeline)
    else do
      let currentEntry := leftQuery.targetList.headD dummyTargetEntry
      let filterBson : BsonValue :=
        .doc [(lookupArgs.foreignField, .utf8 lookupArgs.localField)]
      let newProjectorAttrNum := leftQuery.targetList.length + 1
      let (rightQuery, subPipelineContext, canInlineInnerPipeline,
           canProcessForeignFieldAsDocumentId, _) ←
        processLookupJoinRight mutate lookupArgs isRightQueryAgnostic
          canInlineInnerPipeline newProjectorAttrNum currentEntry.expr rightQuery
          subPipelineContext context.nestedPipelineLevel
      let extractFilterArgs : List Expr :=
        [currentEntry.expr, .constBson filterBson]
      let projectorFunc : Expr :=
        if canProcessForeignFieldAsDocumentId then
          .fnCall "bson_lookup_extract_filter_array" extractFilterArgs false
        else
          .fnCall "bson_dollar_lookup_extract_filter_expression"
            extractFilterArgs false
      let leftQuery : Query := .mk
        { leftQuery.unmk with
          targetList := leftQuery.targetList ++
            [{ expr := projectorFunc, resno := newProjectorAttrNum,
               resname := "lookup_filter" }] }
      .ok (leftQuery, rightQuery, subPipelineContext, canInlineInnerPipeline)
  buildLookupJoinQuery mutate lookupArgs query.querySource context
    subPipelineContext leftQuery rightQuery canInlineInnerPipeline

/-- `HandleLookup`: depth guard, parse, then the core join builder. -/
def handleLookup (env : CompileEnv) (mutate : PipelineMutator)
    (w : StageWriteSet) (existingValue : BsonValue) (query : Query)
    (context : AggregationPipelineBuildContext) :
    Except MongoCode (Query × AggregationPipelineBuildContext) :=
  if context.nestedPipelineLevel > maximumLookupPipelineDepth then
    .error .maxSubPipelineDepthExceeded
  else do
    let lookupArgs ← parseLookupStage existingValue
    processLookupCore env mutate w query context lookupArgs

/-! ## `$graphLookup` -/

/-- `BuildInputExpressionForQuery`:
`bson_expression_get(doc, '{ connectToField: { "$makeArray": expr } }', false)`. -/
def buildInputExpressionForQuery (origExpr : Expr) (connectToField : String)
    (inputExpression : BsonValue) : Expr :=
  .fnCall "bson_expression_get"
    [origExpr,
     .constBson (.doc [(connectToField, .doc [("$makeArray", inputExpression)])]),
     .constBool false] false

/-- `AddInputExpressionToQuery`: project the start expression as column 2
(`inputExpr`) of the input query. -/
def addInputExpressionToQuery (query : Query) (fieldName : String)
    (inputExpression : BsonValue) : Query :=
  let origEntry := query.targetList.headD dummyTargetEntry
  .mk { query.unmk with
        targetList := query.targetList ++
          [{ expr := buildInputExpressionForQuery origEntry.expr fieldName
               inputExpression,
             resno := 2, resname := "inputExpr" }] }

/-- `CreateIdProjectionExpr`:
`bson_expression_get(doc, '{ "_id": "$_id" }')`. -/
def createIdProjectionExpr (baseExpr : Expr) : Expr :=
  .fnCall "bson_expression_get"
    [baseExpr, .constBson (.doc [("_id", .utf8 "$_id")])] false

/-- `GenerateBaseCaseQuery`: the anchor member of the recursive CTE — a
scan of the from collection filtered by containment in the projected
start expression, with depth 0 and the identity column. -/
def generateBaseCaseQuery (env : CompileEnv)
    (parentContext : AggregationPipelineBuildContext) (args : GraphLookupArgs)
    (baseCteLevelsUp : Nat) : Except MongoCode Query := do
  let subPipelineContext : AggregationPipelineBuildContext :=
    { nestedPipelineLevel := parentContext.nestedPipelineLevel + 2,
      databaseName := parentContext.databaseName }
  let (baseCaseQuery, subPipelineContext) := generateBaseTableQuery env
    parentContext.databaseName args.fromCollection subPipelineContext
  if (match subPipelineContext.mongoCollection with
      | some c => c.shardKey.isSome
      | none => false) then
    .error .commandNotSupported
  else
    let baseCaseQuery :=
      if (args.restrictSearch matches BsonValue.eod) = false then
        handleMatchModel args.restrictSearch baseCaseQuery
      else baseCaseQuery
    let baseQuals := makeAndsImplicit baseCaseQuery.quals
    let firstEntry := baseCaseQuery.targetList.headD dummyTargetEntry
    let rightVar : Expr := .varE 1 2 baseCteLevelsUp
    let initialMatchFunc : Expr :=
      .fnCall "bson_dollar_in" [firstEntry.expr, rightVar] false
    let depthPath := if args.depthField.length > 0 then args.depthField else "depth"
    let depthConst : Expr := .constBson (.doc [(depthPath, .int32 0)])
    .ok (.mk { baseCaseQuery.unmk with
               quals := makeAndsExplicit (baseQuals ++ [initialMatchFunc]),
               targetList := baseCaseQuery.targetList ++
                 [{ expr := depthConst, resno := 2, resname := "depth" },
                  { expr := createIdProjectionExpr firstEntry.expr, resno := 3,
                    resname := "baseDocId" }] })

/-- `GenerateRecursiveCaseQuery`: the recursive member — a scan of the
from collection joined with the in-progress recursive CTE, filtered by
containment against the prior round's connect-from values, with depth
incremented and bounded by `maxDepth` when finite. -/
def generateRecursiveCaseQuery (env : CompileEnv)
    (parentContext : AggregationPipelineBuildContext) (recursiveCte : Cte)
    (args : GraphLookupArgs) (levelsUp : Nat) : Query :=
  let subPipelineContext : AggregationPipelineBuildContext :=
    { nestedPipelineLevel := parentContext.nestedPipelineLevel + 2,
      databaseName := parentContext.databaseName }
  let (recursiveQuery, _) := generateBaseTableQuery env
    parentContext.databaseName args.fromCollection subPipelineContext
  let recursiveQuery :=
    if (args.restrictSearch matches BsonValue.eod) = false then
      handleMatchModel args.restrictSearch recursiveQuery
    else recursiveQuery
  let baseQuals := makeAndsImplicit recursiveQuery.quals
  let selfRte :=
    match updateCteRte ("lookupRecursive" ++ "_stage_" ++ toString 1) levelsUp
        true recursiveCte with
    | .cteRte n lv a c _ => RteF.cteRte n lv a c true
    | other => other
  let firstEntry := recursiveQuery.targetList.headD dummyTargetEntry
  let leftDocVar : Expr := .varE 2 1 0
  let inputExpr := buildInputExpressionForQuery leftDocVar args.connectToField
    args.connectFromFieldExpression
  let initialMatchFunc : Expr :=
    .fnCall "bson_dollar_in" [firstEntry.expr, inputExpr] false
  let depthPath := if args.depthField.length > 0 then args.depthField else "depth"
  let priorDepthValue : Expr := .varE 2 2 0
  let baseQuals := baseQuals ++ [initialMatchFunc]
  let baseQuals :=
    if args.maxDepth ≥ 0 ∧ args.maxDepth ≠ 2147483647 then
      baseQuals ++
        [ExprF.opE "bson_dollar_lt" priorDepthValue
          (.constBson (.doc [(depthPath, .int32 args.maxDepth)]))]
    else baseQuals
  let newDepthFuncExpr : Expr := .fnCall "bson_dollar_add_fields"
    [priorDepthValue,
     .constBson (.doc [(depthPath,
       .doc [("$add", .arr [.utf8 ("$" ++ depthPath), .int32 1])])])] false
  .mk { recursiveQuery.unmk with
        rtable := recursiveQuery.rtable ++ [selfRte],
        fromList := recursiveQuery.fromList ++ [.rtref 2],
        quals := makeAndsExplicit baseQuals,
        targetList := recursiveQuery.targetList ++
          [{ expr := newDepthFuncExpr, resno := 2, resname := "depth" },
           { expr := createIdProjectionExpr firstEntry.expr, resno := 3,
             resname := "baseDocId" }] }

/-- Modelled from the spec: PostgreSQL's `rewriteSearchAndCycle` (the
second pass of the two-pass recursive-CTE construction, spec section 9)
lowers the declared cycle clause into the recursive construct, adding the
cycle-mark and path columns. -/
def rewriteSearchAndCycle (c : Cte) : Cte :=
  match c.cycleClause with
  | some cyc =>
    { c with cycleClause := none, loweredCycle := some cyc,
             ctecolnames := c.ctecolnames ++
               [cyc.cycleMarkColumn, cyc.cyclePathColumn] }
  | none => c

/-- The SortGroupClause over bson used by the graph-lookup dedup. -/
def bsonSortGroupClause (ref : Nat) : SortGroupClause :=
  { tleSortGroupRef := ref, eqop := "bson_equal", sortop := "bson_less_than",
    hashable := false }

/-- `BuildRecursiveGraphLookupQuery`: the recursive CTE (anchor UNION ALL
recursive member, CYCLE over `baseDocId`), then the post-traversal
`DISTINCT ON (baseDocId) ... ORDER BY baseDocId, depth` and
`bson_array_agg` into the `as` field. -/
def buildRecursiveGraphLookupQuery (env : CompileEnv) (parentSource : String)
    (args : GraphLookupArgs)
    (parentContext : AggregationPipelineBuildContext) (baseCteExpr : Cte)
    (baseCteLevelsUp : Nat) : Except MongoCode Query := do
  let subPipelineContext : AggregationPipelineBuildContext :=
    { nestedPipelineLevel := parentContext.nestedPipelineLevel + 1,
      databaseName := parentContext.databaseName }
  let unionTargetEntries : List TargetEntry :=
    [{ expr := .varE 1 1 0, resno := 1, resname := "document" },
     { expr := .varE 1 2 0, resno := 2, resname := "depth" },
     { expr := .varE 1 3 0, resno := 3, resname := "baseDocId" }]
  let unionAllQueryShell : Query := .mk
    { querySource := parentSource, targetList := unionTargetEntries }
  let cteCycleClause : CycleClause :=
    { cycleColList := ["baseDocId"], cycleMarkColumn := "is_cycle",
      cyclePathColumn := "path", cycleMarkDefault := false,
      cycleMarkValue := true }
  let graphCteExpr : Cte :=
    { ctename := "graphLookupRecurseStage", ctequery := unionAllQueryShell,
      cterecursive := true, cycleClause := some cteCycleClause }
  let baseCteLevelsUp := baseCteLevelsUp + 2
  let baseSubQuery ← generateBaseCaseQuery env parentContext args baseCteLevelsUp
  let graphCteLevelsUp := 2
  let recursiveSubQuery := generateRecursiveCaseQuery env parentContext
    graphCteExpr args graphCteLevelsUp
  let depth := 2
  let baseQueryRte :=
    match makeSubQueryRte baseSubQuery 1 depth "baseQuery" true with
    | .subqueryRte q a c l _ => RteF.subqueryRte q a c l false
    | other => other
  let recursiveQueryRte :=
    match makeSubQueryRte recursiveSubQuery 2 depth "recursiveQuery" true with
    | .subqueryRte q a c l _ => RteF.subqueryRte q a c l false
    | other => other
  let setOpStatement : SetOpNode := .setOpStmt true 3 (.setOpRef 1) (.setOpRef 2)
  let unionAllQuery : Query := .mk
    { querySource := parentSource,
      targetList := unionTargetEntries,
      rtable := [baseQueryRte, recursiveQueryRte],
      setOperations := some setOpStatement }
  let graphCteExpr : Cte :=
    { graphCteExpr with
      ctequery := unionAllQuery,
      ctecolnames := ["document", "depth", "baseDocId"] }
  let graphCteExpr := rewriteSearchAndCycle graphCteExpr
  let graphCteExpr : Cte :=
    { graphCteExpr with
      ctequery := mapRtesQuery walkerFuel (fun rte =>
        match rte with
        | .cteRte n _ a _ sr =>
          if n = graphCteExpr.ctename then
            updateCteRte a graphCteLevelsUp sr graphCteExpr
          else rte
        | other => other) graphCteExpr.ctequery }
  let simpleVar : Expr := .varE 1 1 0
  let finalDepthVar : Expr := .varE 1 2 0
  let simpleTargetEntry : TargetEntry :=
    { expr :=
        if args.depthField.length > 0 then
          .fnCall "bson_dollar_merge_documents" [simpleVar, finalDepthVar] false
        else simpleVar,
      resno := 1, resname := "document" }
  let distinctEntry : TargetEntry :=
    { expr := .varE 1 3 0, resno := 2, resname := "distinctOn", resjunk := true,
      ressortgroupref := 1 }
  let finalDepthEntry : TargetEntry :=
    { expr := finalDepthVar, resno := 3, resname := "depthVar", resjunk := true,
      ressortgroupref := 2 }
  let graphLookupQuery : Query := .mk
    { querySource := parentSource,
      hasRecursive := true,
      cteList := [graphCteExpr],
      rtable := [createCteRte graphCteExpr "graphLookup" 2 0],
      fromList := [.rtref 1],
      targetList := [simpleTargetEntry, distinctEntry, finalDepthEntry],
      distinctClause := [bsonSortGroupClause 1],
      hasDistinctOn := true,
      sortClause := [bsonSortGroupClause 1, bsonSortGroupClause 2] }
  let (graphLookupQuery, _) := addBsonArrayAggFunction graphLookupQuery
    subPipelineContext args.asField true
  .ok graphLookupQuery

/-- `BuildGraphLookupCteQuery`: per source document, the COALESCE of the
recursive traversal's aggregated array with `'{ as: [] }'`. -/
def buildGraphLookupCteQuery (env : CompileEnv) (parentSource : String)
    (baseCteExpr : Cte) (args : GraphLookupArgs)
    (parentContext : AggregationPipelineBuildContext) :
    Except MongoCode Query := do
  let graphLookupStageRte := createCteRte baseCteExpr "graphLookupBase" 1 1
  let firstEntry : TargetEntry :=
    { expr := .varE 1 1 0, resno := 1, resname := "document" }
  let ctelevelsUp := 2
  let recursiveSelectQuery ← buildRecursiveGraphLookupQuery env parentSource
    args parentContext baseCteExpr ctelevelsUp
  let coalesceExpr := getArrayAggCoalesce (.subLinkE recursiveSelectQuery)
    args.asField
  .ok (.mk { querySource := parentSource,
             rtable := [graphLookupStageRte],
             fromList := [.rtref 1],
             hasSubLinks := true,
             targetList := [firstEntry,
               { expr := coalesceExpr, resno := 2, resname := "addFields" }] })

/-- `ProcessGraphLookupCore`. -/
def processGraphLookupCore (env : CompileEnv) (query : Query)
    (context : AggregationPipelineBuildContext) (lookupArgs : GraphLookupArgs) :
    Except MongoCode (Query × AggregationPipelineBuildContext) := do
  let qc :=
    if query.targetList.length > 1 then migrateQueryToSubQuery query context
    else (query, context)
  let query := addInputExpressionToQuery qc.1 lookupArgs.connectToField
    lookupArgs.inputExpression
  let context := { qc.2 with numNestedLevels := qc.2.numNestedLevels + 1 }
  let baseCteExpr : Cte :=
    { ctename := "graphLookupBase_" ++ toString context.nestedPipelineLevel,
      ctequery := query }
  let graphCteQuery ← buildGraphLookupCteQuery env query.querySource baseCteExpr
    lookupArgs context
  let graphCteExpr : Cte :=
    { ctename := "graphLookupStage_" ++ toString context.nestedPipelineLevel,
      ctequery := graphCteQuery }
  let documentVar : Expr := .varE 1 1 0
  let addFieldsVar : Expr := .varE 1 2 0
  let addFieldsExpr : Expr := .fnCall "bson_dollar_merge_documents"
    [documentVar, addFieldsVar] false
  .ok (.mk { querySource := query.querySource,
             cteList := [baseCteExpr, graphCteExpr],
             rtable := [createCteRte graphCteExpr "graphLookup" 1 0],
             fromList := [.rtref 1],
             targetList := [{ expr := addFieldsExpr, resno := 1,
                              resname := "document" }] },
       context)

/-- `HandleGraphLookup`. -/
def handleGraphLookup (env : CompileEnv) (existingValue : BsonValue)
    (query : Query) (context : AggregationPipelineBuildContext) :
    Except MongoCode (Query × AggregationPipelineBuildContext) := do
  let graphArgs ← parseGraphLookupStage existingValue
  processGraphLookupCore env query context graphArgs

/-! ## `$merge` (translated from `bson_aggregation_output_pipeline.c`) -/

/-- `WhenMatchedAction`. -/
inductive WhenMatchedAction where
  | replace
  | keepExisting
  | merge
  | fail
  | pipelineAction
  | letAction
  deriving Repr, DecidableEq

/-- The integer codes of `WhenMatchedAction` (the C enum values, embedded
into the plan as the third argument of the when-matched function). -/
def WhenMatchedAction.code : WhenMatchedAction → Int
  | .replace => 0
  | .keepExisting => 1
  | .merge => 2
  | .fail => 3
  | .pipelineAction => 4
  | .letAction => 5

/-- `WhenNotMatchedAction`. -/
inductive WhenNotMatchedAction where
  | insert
  | discard
  | fail
  deriving Repr, DecidableEq

/-- `MergeArgs` (the memset-zero defaults are replace/insert). -/
structure MergeArgs where
  targetDB : String := ""
  targetCollection : String := ""
  on_ : BsonValue := .eod
  whenMatched : WhenMatchedAction := .replace
  whenNotMatched : WhenNotMatchedAction := .insert

/-- The database part of a `db.coll` namespace string
(`strchr(currentNameSpace, '.')` slicing in `ParseMergeStage`). -/
def namespaceDbPart (ns : String) : String :=
  stringViewFindPre ns '.'

/-- The `into` field handler of `ParseMergeStage`. -/
def parseMergeInto (currentNameSpace : String) (args : MergeArgs)
    (value : BsonValue) : Except MongoCode MergeArgs := do
  let args ←
    match value with
    | .utf8 s => .ok { args with targetCollection := s }
    | .doc fields => do
      let args ← fields.foldlM (fun (args : MergeArgs) (p : String × BsonValue) =>
        match p.2 with
        | .utf8 s =>
          if p.1 = "db" then .ok { args with targetDB := s }
          else if p.1 = "coll" then .ok { args with targetCollection := s }
          else .error .location40415
        | _ => .error .failedToParse) args
      if args.targetCollection = "" then .error .location51178 else .ok args
    | _ => .error .location51178
  if args.targetDB = "" then
    .ok { args with targetDB := namespaceDbPart currentNameSpace }
  else
    .ok args

/-- The `on` field handler of `ParseMergeStage` (returns the parsed args
and the `isOnSpecified` flag). -/
def parseMergeOn (args : MergeArgs) (value : BsonValue) :
    Except MongoCode MergeArgs :=
  match value with
  | .utf8 s => .ok { args with on_ := .utf8 s }
  | .arr elems => do
    let atLeastOneElement ← elems.foldlM
      (fun (_ : Bool) (e : BsonValue) =>
        match e with
        | .utf8 _ => .ok true
        | _ => .error .location51134) false
    if ¬atLeastOneElement then .error .location51187
    else .ok { args with on_ := .arr elems }
  | _ => .error .location51186

/-- `ParseMergeStage`. -/
def parseMergeStage (existingValue : BsonValue) (currentNameSpace : String) :
    Except MongoCode MergeArgs :=
  match existingValue with
  | .utf8 s =>
    .ok { targetCollection := s, on_ := .utf8 "_id" }
  | .doc fields => do
    let st ← fields.foldlM
      (fun (st : MergeArgs × Bool) (p : String × BsonValue) => do
        let (args, isOnSpecified) := st
        if p.1 = "into" then do
          let args ← parseMergeInto currentNameSpace args p.2
          .ok (args, isOnSpecified)
        else if p.1 = "on" then do
          let args ← parseMergeOn args p.2
          .ok (args, true)
        else if p.1 = "let" then
          .error .commandNotSupported
        else if p.1 = "whenMatched" then
          match p.2 with
          | .arr _ => .error .commandNotSupported
          | .utf8 s =>
            if s = "replace" then
              .ok ({ args with whenMatched := .replace }, isOnSpecified)
            else if s = "keepExisting" then
              .ok ({ args with whenMatched := .keepExisting }, isOnSpecified)
            else if s = "merge" then .error .commandNotSupported
            else if s = "fail" then
              .ok ({ args with whenMatched := .fail }, isOnSpecified)
            else .error .badValue
          | _ => .error .location51191
        else if p.1 = "whenNotMatched" then
          match p.2 with
          | .utf8 s =>
            if s = "insert" then
              .ok ({ args with whenNotMatched := .insert }, isOnSpecified)
            else if s = "discard" then
              .ok ({ args with whenNotMatched := .discard }, isOnSpecified)
            else if s = "fail" then
              .ok ({ args with whenNotMatched := .fail }, isOnSpecified)
            else .error .badValue
          | _ => .error .typeMismatch
        else
          .error .failedToParse)
      ({}, false)
    let (args, isOnSpecified) := st
    if args.targetCollection = "" then .error .location40414
    else if ¬isOnSpecified then .ok { args with on_ := .utf8 "_id" }
    else .ok args
  | _ => .error .typeMismatch

/-- `InitHashTableFromStringArray`, as the set of utf8 members of the
`on` array (hash-set membership becomes list membership). -/
def onValueStrings : BsonValue → List String
  | .arr elems => elems.filterMap (fun e =>
      match e with
      | .utf8 s => some s
      | _ => none)
  | _ => []

/-- The scan loop of `IsCompoundUniqueIndexPresent`: count index keys
until the first one missing from the `on` set (`break` keeps the count
accumulated so far). -/
def compoundIndexFoundCount (onSet : List String) :
    List (String × BsonValue) → Nat → Nat
  | [], c => c
  | (k, _) :: rest, c =>
    if onSet.contains k then compoundIndexFoundCount onSet rest (c + 1) else c

/-- `IsCompoundUniqueIndexPresent`. -/
def isCompoundUniqueIndexPresent (onValues : BsonValue)
    (indexKeyDocument : List (String × BsonValue)) (totalIndexKeys : Nat) :
    Bool :=
  compoundIndexFoundCount (onValueStrings onValues) indexKeyDocument 0 ==
    totalIndexKeys

/-- `IsSingleUniqueIndexPresent`: the index key document must hold
exactly one element whose path is the `on` value. -/
def isSingleUniqueIndexPresent (onValue : String)
    (indexKeyDocument : List (String × BsonValue)) : Bool :=
  match indexKeyDocument with
  | [(k, _)] => k == onValue
  | _ => false

/-- `VaildateMergeOnFieldValues` (collection indexes are passed in; the
C obtains them from `CollectionIdGetIndexes`, and a `collectionId` of 0
means the collection does not exist, so there are none). -/
def vaildateMergeOnFieldValues (onValues : BsonValue) (collectionId : Nat)
    (collectionIndexes : List IndexDetails) : Except MongoCode Unit :=
  let numKeysOnField :=
    match onValues with
    | .arr _ => bsonValueCountKeys onValues
    | _ => 1
  let keyNameIfSingleKeyJoin : Option String :=
    if numKeysOnField = 1 then
      match onValues with
      | .arr elems =>
        match elems.headD .eod with
        | .utf8 s => some s
        | _ => none
      | .utf8 s => some s
      | _ => none
    else none
  if keyNameIfSingleKeyJoin = some "_id" then .ok ()
  else
    let indexesDetailList := if collectionId ≠ 0 then collectionIndexes else []
    let foundRequiredIndex := indexesDetailList.any (fun indexDetail =>
      if ¬indexDetail.indexUnique ∨ indexDetail.indexPFEDocument.isSome then
        false
      else
        match keyNameIfSingleKeyJoin with
        | some k => isSingleUniqueIndexPresent k indexDetail.indexKeyDocument
        | none => isCompoundUniqueIndexPresent onValues
            indexDetail.indexKeyDocument numKeysOnField)
    if foundRequiredIndex then .ok () else .error .location51183

/-- `MakeActionWhenMatched`. -/
def makeActionWhenMatched (whenMatched : WhenMatchedAction)
    (sourceDocVar targetDocVar : Expr) : MergeAction :=
  if whenMatched = .keepExisting then
    { matched := true, commandType := .nothingCmd }
  else
    { matched := true, commandType := .updateCmd,
      targetList := [{ expr := .fnCall "bson_dollar_merge_handle_when_matched"
                         [sourceDocVar, targetDocVar,
                          .constInt32 whenMatched.code] false,
                       resno := mongoDataTableDocumentAttrNumber,
                       resname := "document" }] }

/-- `MakeActionWhenNotMatched` (reads `GetCurrentTimestamp()` — the
environment's `now` — into the inserted `creation_time` constant). -/
def makeActionWhenNotMatched (env : CompileEnv)
    (whenNotMatched : WhenNotMatchedAction) (sourceDocVar sourceShardKeyVar : Expr)
    (targetCollection : MongoCollection) : MergeAction :=
  if whenNotMatched = .discard then
    { matched := false, commandType := .nothingCmd }
  else
    let nowValue : Expr := .constTimestampTz env.now
    let functionName :=
      if whenNotMatched = .insert then "bson_get_value"
      else "bson_dollar_merge_fail_when_not_matched"
    let addObjectIdExtractFuncExpr : Expr :=
      .fnCall functionName [sourceDocVar, .constText "_id"] false
    { matched := false, commandType := .insertCmd,
      targetList :=
        [{ expr := sourceShardKeyVar,
           resno := mongoDataTableShardKeyValueAttrNumber,
           resname := "target_shard_key_value" },
         { expr := addObjectIdExtractFuncExpr,
           resno := mongoDataTableObjectIdAttrNumber, resname := "object_id" },
         { expr := sourceDocVar, resno := mongoDataTableDocumentAttrNumber,
           resname := "document" },
         { expr := nowValue,
           resno := targetCollection.mongoDataCreationTimeVarAttrNumber,
           resname := "creation_time" }] }

/-- The junk-column scan of `RearrangeTargetListForMerge`: walk the
target list, failing on a real column after a junk one, shifting junk
resnos up by one and clearing their names, and counting the leading real
columns. -/
def rearrangeScan : List TargetEntry → Nat → Bool →
    Except MongoCode (List TargetEntry × Nat)
  | [], idx, _ => .ok ([], idx)
  | entry :: rest, idx, foundResJunk =>
    if foundResJunk ∧ entry.resjunk = false then .error .internalError
    else
      let foundResJunk := foundResJunk ∨ entry.resjunk
      if foundResJunk then do
        let (rest, idx) ← rearrangeScan rest idx foundResJunk
        .ok ({ entry with resno := entry.resno + 1, resname := "" } :: rest, idx)
      else do
        let (rest, idx) ← rearrangeScan rest (idx + 1) foundResJunk
        .ok (entry :: rest, idx)

/-- `RearrangeTargetListForMerge`: wrap the document column in
`bson_dollar_merge_add_object_id` and insert the constant
`target_shard_key_value` column before the junk columns; returns the
reshaped query and the source shard-key attribute number. -/
def rearrangeTargetListForMerge (query : Query)
    (targetCollection : MongoCollection) (isSourceAndTargetAreSame : Bool) :
    Except MongoCode (Query × Nat) := do
  let newTargetList := replaceHead query.targetList (fun sourceDocTE =>
    { sourceDocTE with
      expr := .fnCall "bson_dollar_merge_add_object_id" [sourceDocTE.expr]
        false })
  if isSourceAndTargetAreSame then .error .commandNotSupported
  else do
    let (scanned, indexToInsertShardKeyColumn) ← rearrangeScan newTargetList 0 false
    let sourceShardKeyValueAttrNo := indexToInsertShardKeyColumn + 1
    let dummySourceShardKeyValueTE : TargetEntry :=
      { expr := .constInt64 targetCollection.collectionId,
        resno := sourceShardKeyValueAttrNo,
        resname := "target_shard_key_value" }
    let newTargetList :=
      scanned.take indexToInsertShardKeyColumn ++
        [dummySourceShardKeyValueTE] ++
        scanned.drop indexToInsertShardKeyColumn
    .ok (.mk { query.unmk with targetList := newTargetList },
         sourceShardKeyValueAttrNo)

/-- `AddTargetCollectionRTEDollarMerge`: prepend the target relation to
the range table and make it the result relation. -/
def addTargetCollectionRTEDollarMerge (query : Query)
    (targetCollection : MongoCollection) : Query :=
  let rte : Rte := .relationRte targetCollection.tableName
    ["shard_key_value", "document"]
  .mk { query.unmk with
        rtable := rte :: query.rtable.take 1,
        resultRelation := 1 }

/-- `WriteJoinConditionToQueryDollarMerge`: shard-key equality plus one
`bson_dollar_merge_join` per `on` field. -/
def writeJoinConditionToQueryDollarMerge (query : Query)
    (sourceDocVar targetDocVar sourceShardKeyValueVar targetShardKeyValueVar :
      Expr) (mergeArgs : MergeArgs) : Except MongoCode Query := do
  let opexpr : Expr := .opE "int4_equal" targetShardKeyValueVar
    sourceShardKeyValueVar
  let mergeJoinFor := fun (onField : String) =>
    ExprF.fnCall "bson_dollar_merge_join"
      [targetDocVar, sourceDocVar, .constText onField] false
  let joinFilterList ←
    match mergeArgs.on_ with
    | .utf8 s => .ok [opexpr, mergeJoinFor s]
    | .arr elems =>
      .ok (opexpr :: elems.map (fun e =>
        match e with
        | .utf8 s => mergeJoinFor s
        | _ => mergeJoinFor ""))
    | _ => .error .failedToParse
  .ok (.mk { query.unmk with
             fromList := [.rtref 2],
             quals := makeAndsExplicit joinFilterList })

mutual

/-- The `hasRecursive` walk of `ValidatePreviousStagesOfDollarMerge` /
`MergeQueryCTEWalker`, fuel-bounded. -/
def queryHasRecursiveAnywhere (fuel : Nat) (q : Query) : Bool :=
  match fuel with
  | 0 => false
  | fuel + 1 =>
    q.hasRecursive ||
      q.rtable.any (fun rte =>
        match rte with
        | .subqueryRte sub _ _ _ _ => queryHasRecursiveAnywhere fuel sub
        | _ => false) ||
      q.cteList.any (fun cte => queryHasRecursiveAnywhere fuel cte.ctequery) ||
      q.targetList.any (fun te => exprHasRecursiveAnywhere fuel te.expr) ||
      (match q.quals with
       | some e => exprHasRecursiveAnywhere fuel e
       | none => false)

def exprHasRecursiveAnywhere (fuel : Nat) (e : Expr) : Bool :=
  match fuel with
  | 0 => false
  | fuel + 1 =>
    match e with
    | .fnCall _ args _ => args.any (exprHasRecursiveAnywhere fuel)
    | .aggFn _ args => args.any (exprHasRecursiveAnywhere fuel)
    | .coalesceE args => args.any (exprHasRecursiveAnywhere fuel)
    | .opE _ l r =>
      exprHasRecursiveAnywhere fuel l || exprHasRecursiveAnywhere fuel r
    | .scalarArrayOpAny _ l r =>
      exprHasRecursiveAnywhere fuel l || exprHasRecursiveAnywhere fuel r
    | .boolAndE args => args.any (exprHasRecursiveAnywhere fuel)
    | .subLinkE sub => queryHasRecursiveAnywhere fuel sub
    | _ => false

end

/-- `ValidatePreviousStagesOfDollarMerge`: fail early when `$merge`
follows a `$graphLookup` (a recursive construct) anywhere upstream. -/
def validatePreviousStagesOfDollarMerge (query : Query) :
    Except MongoCode Unit :=
  if queryHasRecursiveAnywhere walkerFuel query then .error .commandNotSupported
  else .ok ()

/-- `HandleMerge`. -/
def handleMerge (env : CompileEnv) (existingValue : BsonValue) (query : Query)
    (context : AggregationPipelineBuildContext) :
    Except MongoCode (Query × AggregationPipelineBuildContext) :=
  if ¬(env.clusterVersionAtLeast119 ∧ env.enableMergeStage) then
    .error .commandNotSupported
  else if env.inTransactionBlock then
    .error .operationNotSupportedInTransaction
  else
    match context.mongoCollection with
    | none => .ok (query, context)
    | some sourceCollection => do
      validatePreviousStagesOfDollarMerge query
      let mergeArgs ← parseMergeStage existingValue context.namespaceName
      let targetCollection ←
        match env.catalog mergeArgs.targetDB mergeArgs.targetCollection with
        | none =>
          if env.enableMergeTargetCreation then do
            let ignoreCollectionID := 0
            vaildateMergeOnFieldValues mergeArgs.on_ ignoreCollectionID []
            .ok (env.createColl mergeArgs.targetDB mergeArgs.targetCollection)
          else
            .error .commandNotSupported
        | some targetCollection =>
          if targetCollection.viewDefinition.isSome then
            .error .commandNotSupportedOnView
          else if targetCollection.shardKey.isSome then
            .error .commandNotSupported
          else do
            vaildateMergeOnFieldValues mergeArgs.on_
              targetCollection.collectionId targetCollection.indexes
            .ok targetCollection
      let isSourceAndTargetAreSame :=
        targetCollection.collectionId = sourceCollection.collectionId
      let targetCollectionVarNo := 1
      let targetShardKeyValueAttrNo := 1
      let targetDocAttrNo := 2
      let sourceCollectionVarNo := 2
      let sourceDocAttrNo := 1
      let (query, sourceShardKeyValueAttrNo) ←
        if targetCollection.shardKey.isNone then
          rearrangeTargetListForMerge query targetCollection
            isSourceAndTargetAreSame
        else
          .ok (query, 2)
      let context := { context with expandTargetList := true }
      let (query, context) := migrateQueryToSubQuery query context
      let query : Query := .mk { query.unmk with commandType := .mergeCmd }
      let query := addTargetCollectionRTEDollarMerge query targetCollection
      let sourceDocVar : Expr := .varE sourceCollectionVarNo sourceDocAttrNo 0
      let targetDocVar : Expr := .varE targetCollectionVarNo targetDocAttrNo 0
      let targetShardKeyValueVar : Expr :=
        .varE targetCollectionVarNo targetShardKeyValueAttrNo 0
      let sourceShardKeyValueVar : Expr :=
        .varE sourceCollectionVarNo sourceShardKeyValueAttrNo 0
      let query : Query := .mk
        { query.unmk with
          mergeActionList :=
            [makeActionWhenMatched mergeArgs.whenMatched sourceDocVar
               targetDocVar,
             makeActionWhenNotMatched env mergeArgs.whenNotMatched sourceDocVar
               sourceShardKeyValueVar targetCollection] }
      let query ← writeJoinConditionToQueryDollarMerge query sourceDocVar
        targetDocVar sourceShardKeyValueVar targetShardKeyValueVar mergeArgs
      .ok (query, context)

/-! ## Execution semantics of the graph-lookup recursive construct

`BuildRecursiveGraphLookupQuery` emits a recursive UNION ALL whose anchor
matches documents whose connect-to value lies in the projected start
array, whose recursive member matches documents whose connect-to value
lies in the prior row's make-array'd connect-from values, and whose
`CYCLE baseDocId SET is_cycle USING path` clause stops expanding a row
whose identity already occurs on its own path.  The functions below are
that construct's execution semantics over a finite collection; document
identities (`_id`, the `baseDocId` column) are `Nat`s and connect-field
values are `Int`s. -/

/-- A document of the `from` collection, seen through the three fields
the traversal reads: its identity, its connect-to value, and its
(make-array'd) connect-from values. -/
structure GDoc where
  gid : Nat
  connectTo : Int
  connectFrom : List Int
  deriving Repr, DecidableEq

/-- One working row of the recursive CTE: the matched document, the
`depth` column, the `path` column (identities from the anchor row to this
row), and the `is_cycle` mark. -/
structure GRow where
  doc : GDoc
  depth : Nat
  path : List Nat
  cyc : Bool
  deriving Repr, DecidableEq

/-- The anchor branch: documents whose connect-to value is contained in
the start array, at depth 0, with a fresh path and a clear cycle mark. -/
def graphBaseRows (docs : List GDoc) (start : List Int) : List GRow :=
  (docs.filter (fun d => start.contains d.connectTo)).map
    (fun d => { doc := d, depth := 0, path := [d.gid], cyc := false })

/-- Expansion of one non-cyclic row by the recursive branch: every
document whose connect-to value lies in the row's connect-from array,
one depth deeper, with the identity appended to the path and the cycle
mark set when that identity already occurs on the path. -/
def graphExpandRow (docs : List GDoc) (r : GRow) : List GRow :=
  (docs.filter (fun d => r.doc.connectFrom.contains d.connectTo)).map
    (fun d => { doc := d, depth := r.depth + 1, path := r.path ++ [d.gid],
                cyc := r.path.contains d.gid })

/-- One round of the recursive CTE: rows marked cyclic are not expanded. -/
def graphStepRows (docs : List GDoc) (rows : List GRow) : List GRow :=
  (rows.filter (fun r => !r.cyc)).flatMap (graphExpandRow docs)

/-- The working table contents after `n` rounds. -/
def graphLevels (docs : List GDoc) (start : List Int) : Nat → List GRow
  | 0 => graphBaseRows docs start
  | n + 1 => graphStepRows docs (graphLevels docs start n)

/-- Everything the recursive CTE emits (levels beyond `docs.length` are
empty, as proved below). -/
def graphAllRows (docs : List GDoc) (start : List Int) : List GRow :=
  (List.range (docs.length + 1)).flatMap (graphLevels docs start)

/-- The minimal `depth` among a set of working rows (`none` when there is
none): what `DISTINCT ON (baseDocId) ... ORDER BY baseDocId, depth`
retains of the rows sharing one identity. -/
def depthFoldMin (rows : List GRow) : Option Nat :=
  rows.foldr
    (fun r acc =>
      match acc with
      | none => some r.depth
      | some m => some (min r.depth m)) none

/-- The `DISTINCT ON (baseDocId) ... ORDER BY baseDocId, depth`
post-processing keeps, per identity, the minimal emitted depth. -/
def graphMinDepth (docs : List GDoc) (start : List Int) (i : Nat) :
    Option Nat :=
  depthFoldMin ((graphAllRows docs start).filter (fun r => r.doc.gid = i))

/-- Reachability in `n` steps: the graph-distance witness relation the
traversal is compared against.  `base` is an anchor match; `step` follows
one connect-from/connect-to edge. -/
inductive ReachN (docs : List GDoc) (start : List Int) : Nat → GDoc → Prop
  | base (d : GDoc) (hd : d ∈ docs) (hs : start.contains d.connectTo) :
      ReachN docs start 0 d
  | step (n : Nat) (u d : GDoc) (hu : ReachN docs start n u) (hd : d ∈ docs)
      (he : u.connectFrom.contains d.connectTo) : ReachN docs start (n + 1) d

/-- Reachability: some number of steps reaches the document. -/
def Reach (docs : List GDoc) (start : List Int) (d : GDoc) : Prop :=
  ∃ n, ReachN docs start n d

/-! ## Definitions used by the claim statements -/

/-- The output column names of a plan (the resnames of its target list). -/
def outputColumnNames (q : Query) : List String :=
  q.targetList.map (fun te => te.resname)

/-- `w` is the path `f` or a dotted prefix of it (the spec's "writes to
`local_field` or any dotted prefix of it"). -/
def isDottedPre (w f : String) : Bool :=
  w == f || (w ++ ".").data.isPrefixOf f.data

/-- The stage documents of a `$lookup` nested pipeline value. -/
def pipelineStageDocs : BsonValue → List BsonValue
  | .arr stages => stages
  | _ => []

/-- The field list denoted by a `$merge` `on` value (string, or array of
strings). -/
def onFieldList : BsonValue → List String
  | .utf8 s => [s]
  | .arr es => es.filterMap (fun e =>
      match e with
      | .utf8 s => some s
      | _ => none)
  | _ => []

/-- Equality of two string lists as sets. -/
def sameStringSet (a b : List String) : Bool :=
  a.all (fun x => b.contains x) && b.all (fun x => a.contains x)

/-- The `$merge` uniqueness rule as the claim states it: the `on` field
set is exactly `["_id"]`, or some declared unique index without a
partial-filter expression has a key set exactly equal to the `on` field
set.  (Stated from the claim's words, to be compared against
`vaildateMergeOnFieldValues`.) -/
def mergeOnClaimAllows (onValues : BsonValue)
    (collectionIndexes : List IndexDetails) : Bool :=
  sameStringSet (onFieldList onValues) ["_id"] ||
    collectionIndexes.any (fun idx =>
      idx.indexUnique && idx.indexPFEDocument.isNone &&
        sameStringSet (idx.indexKeyDocument.map Prod.fst)
          (onFieldList onValues))

/-- The result of a `$merge` compile, projected to the timestamp constant
of the when-not-matched insert action (the `creation_time` column). -/
def mergePlanCreationTs
    (r : Except MongoCode (Query × AggregationPipelineBuildContext)) :
    Option Int :=
  match r with
  | .ok (q, _) =>
    match q.mergeActionList with
    | [_, a] =>
      match ((a.targetList.drop 3).headD dummyTargetEntry).expr with
      | .constTimestampTz t => some t
      | _ => none
    | _ => none
  | .error _ => none

/-- A `$lookup` stage document nesting `n` further lookups through its
`pipeline` argument (`lookupSpecChain n` holds `n + 1` lookups in all). -/
def lookupSpecChain : Nat → BsonValue
  | 0 => .doc [("from", .utf8 "coll"), ("as", .utf8 "joined"),
               ("pipeline", .arr [])]
  | n + 1 => .doc [("from", .utf8 "coll"), ("as", .utf8 "joined"),
                   ("pipeline", .arr [.doc [("$lookup", lookupSpecChain n)]])]

/-- Modelled from the spec: the stage dispatcher
(`MutateQueryWithPipeline`, spec section 4.2) restricted to pipelines of
`$lookup` stages — it walks the stage array in order, sets `stage_num`,
dispatches each stage to `handleLookup`, and fails fast; the fuel bounds
the call-stack recursion the C dispatcher performs directly. -/
def mutateLookupOnly (env : CompileEnv) (w : StageWriteSet) :
    Nat → PipelineMutator
  | 0 => fun _ _ _ => .error .internalError
  | fuel + 1 => fun q pipeline ctx =>
    match pipeline with
    | .arr stages => do
      let st ← stages.foldlM
        (fun (st : (Query × AggregationPipelineBuildContext) × Nat)
             (stage : BsonValue) => do
          let ((q, ctx), i) := st
          let (stageName, stageValue) ← getPipelineStage stage
          if stageName = "$lookup" then do
            let r ← handleLookup env (mutateLookupOnly env w fuel) w stageValue
              q { ctx with stageNum := i }
            .ok (r, i + 1)
          else
            .error .commandNotSupported)
        ((q, ctx), 0)
      .ok st.1
    | .eod => .ok (q, ctx)
    | _ => .error .typeMismatch

/-- An empty write-set (no stage writes anywhere). -/
def emptyWriteSet : StageWriteSet := fun _ => []

/-- A one-collection catalog environment used by concrete witnesses. -/
def witnessEnv : CompileEnv :=
  { now := 0,
    catalog := fun _ _ =>
      some { collectionId := 7, tableName := "documents_7" } }

/-- Compile a chain of `depth` nested lookups against the witness
environment, starting from a fresh single-column plan. -/
def compileLookupChain (depth : Nat) :
    Except MongoCode (Query × AggregationPipelineBuildContext) :=
  match depth with
  | 0 => .ok ((generateBaseAgnosticQuery {}).1, {})
  | d + 1 =>
    handleLookup witnessEnv (mutateLookupOnly witnessEnv emptyWriteSet (d + 1))
      emptyWriteSet (lookupSpecChain d) (generateBaseAgnosticQuery {}).1 {}

/-- No stage of a `$lookup` nested pipeline value is `$out` or `$merge`. -/
def lookupPipelineNoOutMerge (p : BsonValue) : Prop :=
  ∀ stage ∈ pipelineStageDocs p, ∀ kv : String × BsonValue,
    tryGetSingleElement stage = some kv → kv.1 ≠ "$out" ∧ kv.1 ≠ "$merge"

/-- No branch of a `$facet` document contains a banned stage. -/
def facetNoBannedStages (v : BsonValue) : Prop :=
  ∀ branch : String × BsonValue,
    (match v with
     | .doc fields => branch ∈ fields
     | _ => False) →
    ∀ stage ∈ pipelineStageDocs branch.2, ∀ kv : String × BsonValue,
      tryGetSingleElement stage = some kv → kv.1 ∉ bannedFacetStages

/-- The subquery behind an RTE, when it is a subquery RTE. -/
def rteSubqueryOf : Rte → Option Query
  | .subqueryRte s _ _ _ _ => some s
  | _ => none

/-- A single-column input plan exposing the `document` column, used by
concrete witnesses. -/
def docInputQuery : Query :=
  .mk { targetList := [{ expr := .varE 1 1 0, resno := 1, resname := "document" }] }

/-- The `$merge` compile environment of the determinism counterexample:
everything fixed except the clock. -/
def c3Env (t : Int) : CompileEnv :=
  { now := t,
    catalog := fun _ c =>
      if c = "target" then some { collectionId := 9, tableName := "documents_9" }
      else none }

/-- Source-collection context of the determinism counterexample. -/
def c3SourceCtx : AggregationPipelineBuildContext :=
  { namespaceName := "db.source",
    mongoCollection := some { collectionId := 3, tableName := "documents_3" } }

/-- The 3-node cycle A → B → C → A of the graph-lookup termination test:
node ids 1, 2, 3, connect-to values 10, 20, 30, and each node's
connect-from pointing at the next node's connect-to value. -/
def cycleDocs3 : List GDoc :=
  [{ gid := 1, connectTo := 10, connectFrom := [20] },
   { gid := 2, connectTo := 20, connectFrom := [30] },
   { gid := 3, connectTo := 30, connectFrom := [10] }]

/-- A valid `$graphLookup` argument pack for concrete witnesses. -/
def witnessGraphArgs : GraphLookupArgs :=
  { inputExpression := .utf8 "$startId",
    fromCollection := "edges",
    connectFromField := "nxt",
    connectToField := "val",
    asField := "hops",
    connectFromFieldExpression := .utf8 "$nxt" }

/-- The output-column names of a compile result, `none` on error. -/
def exceptOutputNames
    (r : Except MongoCode (Query × AggregationPipelineBuildContext)) :
    Option (List String) :=
  match r with
  | .ok p => some (outputColumnNames p.1)
  | .error _ => none

/-- A dispatcher that replaces any plan by the fresh one-column
`document` plan; used by concrete witnesses. -/
def c1MutDoc : PipelineMutator := fun _ _ c => .ok (docInputQuery, c)

/-- A valid `$graphLookup` stage document for concrete witnesses. -/
def c1GraphSpec : BsonValue :=
  .doc [("as", .utf8 "hops"), ("startWith", .utf8 "$a"),
        ("connectFromField", .utf8 "nxt"), ("connectToField", .utf8 "val"),
        ("from", .utf8 "edges")]

/-- A declared unique index (no partial filter) on `{a, b, c}`: a strict
superset of the `on` set `{a, b}` of claim C5's failing input. -/
def c5SupersetIndex : IndexDetails :=
  { indexUnique := true,
    indexKeyDocument := [("a", .int32 1), ("b", .int32 1), ("c", .int32 1)] }

/-- A base CTE over the one-column input plan, for C2's concrete
builder runs. -/
def c2BaseCte : Cte :=
  { ctename := "graphLookupBase_0", ctequery := docInputQuery }

/-- A concrete run of the recursive graph-lookup CTE builder. -/
def c2RecRun : Except MongoCode Query :=
  buildRecursiveGraphLookupQuery witnessEnv "src" witnessGraphArgs {}
    c2BaseCte 1

/-- A concrete run of the per-document graph-lookup CTE query builder. -/
def c2CteRun : Except MongoCode Query :=
  buildGraphLookupCteQuery witnessEnv "src" c2BaseCte witnessGraphArgs {}

/-! ## Helper lemmas -/

@[simp]
theorem Query.unmk_mk (f : QueryF Query) : (Query.mk f).unmk = f := rfl

theorem except_bind_ok {α β ε : Type} {m : Except ε α} {f : α → Except ε β}
    {b : β} (h : (m >>= f) = .ok b) : ∃ a, m = .ok a ∧ f a = .ok b := by
  cases m with
  | ok a => exact ⟨a, rfl, h⟩
  | error e => simp [Bind.bind, Except.bind] at h

theorem except_map_ok {α β ε : Type} {m : Except ε α} {f : α → β} {b : β}
    (h : (f <$> m) = .ok b) : ∃ a, m = .ok a ∧ f a = b := by
  cases m with
  | ok a =>
    refine ⟨a, rfl, ?_⟩
    simpa [Functor.map, Except.map] using h
  | error e => simp [Functor.map, Except.map] at h

theorem foldlM_except_invariant {α β ε : Type} (P : β → Prop)
    (f : β → α → Except ε β)
    (hf : ∀ b a b', P b → f b a = .ok b' → P b') :
    ∀ (l : List α) (b b' : β), P b → l.foldlM f b = .ok b' → P b' := by
  intro l
  induction l with
  | nil =>
    intro b b' hb h
    simp only [List.foldlM_nil] at h
    cases h
    exact hb
  | cons a l ih =>
    intro b b' hb h
    rw [List.foldlM_cons] at h
    obtain ⟨b2, hb2, hrest⟩ := except_bind_ok h
    exact ih b2 b' (hf b a b2 hb hb2) hrest

theorem foldlM_unit_mem {α ε : Type} (g : α → Except ε Unit) :
    ∀ (l : List α), l.foldlM (fun _ a => g a) () = .ok () →
      ∀ a ∈ l, g a = .ok () := by
  intro l
  induction l with
  | nil => intro _ a ha; cases ha
  | cons x l ih =>
    intro h a ha
    rw [List.foldlM_cons] at h
    obtain ⟨u, hu, hrest⟩ := except_bind_ok h
    cases u
    rcases List.mem_cons.mp ha with rfl | hmem
    · exact hu
    · exact ih hrest a hmem

theorem map_resname_replaceHead (l : List TargetEntry)
    (f : TargetEntry → TargetEntry)
    (hf : ∀ te, (f te).resname = te.resname) :
    (replaceHead l f).map (fun te => te.resname) =
      l.map (fun te => te.resname) := by
  cases l <;> simp [replaceHead, hf]

theorem outputColumnNames_migrate (q : Query)
    (c : AggregationPipelineBuildContext) :
    outputColumnNames (migrateQueryToSubQuery q c).1 =
      if c.expandTargetList then outputColumnNames q
      else (outputColumnNames q).take 1 := by
  simp only [migrateQueryToSubQuery, outputColumnNames, Query.targetList, Query.unmk_mk]
  by_cases h : c.expandTargetList <;>
    simp [h, List.map_map, List.map_take, Function.comp_def]

theorem outputColumnNames_mapRtes (fuel : Nat) (g : Rte → Rte) (q : Query) :
    outputColumnNames (mapRtesQuery fuel g q) = outputColumnNames q := by
  cases fuel with
  | zero => rfl
  | succ n =>
    simp [mapRtesQuery, outputColumnNames, Query.targetList, Query.unmk,
      List.map_map, Function.comp]

theorem outputColumnNames_setCteLevelsUp (n : String) (lv : Nat) (q : Query) :
    outputColumnNames (setCteLevelsUp n lv q) = outputColumnNames q :=
  outputColumnNames_mapRtes _ _ _

theorem outputColumnNames_addArrayAgg (q : Query)
    (c : AggregationPipelineBuildContext) (f : String) (mig : Bool) :
    outputColumnNames (addBsonArrayAggFunction q c f mig).1 =
      outputColumnNames (if mig then (migrateQueryToSubQuery q c).1 else q) := by
  rcases hm : migrateQueryToSubQuery q c with ⟨mq, c2⟩
  cases mig
  · simp only [addBsonArrayAggFunction, Bool.false_eq_true, if_false,
      outputColumnNames, Query.targetList, Query.unmk_mk]
    exact map_resname_replaceHead _ _ (fun te => rfl)
  · simp only [addBsonArrayAggFunction, if_true, hm, outputColumnNames,
      Query.targetList, Query.unmk_mk]
    exact map_resname_replaceHead _ _ (fun te => rfl)

theorem outputColumnNames_singleton_headD (q : Query) (s : String)
    (h : outputColumnNames q = [s]) :
    (q.targetList.headD dummyTargetEntry).resname = s ∧
      q.targetList.length = 1 := by
  simp only [outputColumnNames] at h
  cases hq : q.targetList with
  | nil => rw [hq] at h; cases h
  | cons t ts =>
    rw [hq] at h
    simp only [List.map_cons, List.cons.injEq] at h
    obtain ⟨h1, h2⟩ := h
    have hts : ts = [] := by
      cases ts with
      | nil => rfl
      | cons a l => simp at h2
    subst hts
    simp [h1]

theorem except_ok_of_isOk {ε α : Type} {r : Except ε α}
    (h : r.isOk = true) : ∃ a, r = .ok a := by
  cases r with
  | ok a => exact ⟨a, rfl⟩
  | error e => exact Bool.noConfusion h

theorem buildLookupJoinQuery_names (mutate : PipelineMutator)
    (lookupArgs : LookupArgs) (qs : String)
    (c sc : AggregationPipelineBuildContext) (lq rq : Query) (ci : Bool)
    (q' : Query) (c' : AggregationPipelineBuildContext)
    (h : buildLookupJoinQuery mutate lookupArgs qs c sc lq rq ci
        = .ok (q', c')) :
    outputColumnNames q' = ["document"] := by
  unfold buildLookupJoinQuery at h
  dsimp only at h
  split at h
  · obtain ⟨d, hd, h⟩ := except_bind_ok h
    cases h
    rfl
  · cases h
    rfl

theorem processLookupCore_names (env : CompileEnv) (mutate : PipelineMutator)
    (w : StageWriteSet) (q : Query) (c : AggregationPipelineBuildContext)
    (args : LookupArgs) (q' : Query) (c' : AggregationPipelineBuildContext)
    (h : processLookupCore env mutate w q c args = .ok (q', c')) :
    outputColumnNames q' = ["document"] := by
  unfold processLookupCore at h
  dsimp only at h
  split at h
  · obtain ⟨d, hd, h⟩ := except_bind_ok h
    exact buildLookupJoinQuery_names _ _ _ _ _ _ _ _ _ _ h
  · obtain ⟨t5, ht5, h⟩ := except_bind_ok h
    obtain ⟨a, b, cc, dd, e⟩ := t5
    exact buildLookupJoinQuery_names _ _ _ _ _ _ _ _ _ _ h

theorem handleLookup_names (env : CompileEnv) (mutate : PipelineMutator)
    (w : StageWriteSet) (v : BsonValue) (q : Query)
    (c : AggregationPipelineBuildContext) (q' : Query)
    (c' : AggregationPipelineBuildContext)
    (h : handleLookup env mutate w v q c = .ok (q', c')) :
    outputColumnNames q' = ["document"] := by
  unfold handleLookup at h
  split at h
  · cases h
  · obtain ⟨la, hla, h⟩ := except_bind_ok h
    exact processLookupCore_names _ _ _ _ _ _ _ _ h

theorem processGraphLookupCore_names (env : CompileEnv) (q : Query)
    (c : AggregationPipelineBuildContext) (args : GraphLookupArgs)
    (q' : Query) (c' : AggregationPipelineBuildContext)
    (h : processGraphLookupCore env q c args = .ok (q', c')) :
    outputColumnNames q' = ["document"] := by
  unfold processGraphLookupCore at h
  dsimp only at h
  obtain ⟨gq, hgq, h⟩ := except_bind_ok h
  cases h
  rfl

theorem handleGraphLookup_names (env : CompileEnv) (v : BsonValue)
    (q : Query) (c : AggregationPipelineBuildContext) (q' : Query)
    (c' : AggregationPipelineBuildContext)
    (h : handleGraphLookup env v q c = .ok (q', c')) :
    outputColumnNames q' = ["document"] := by
  unfold handleGraphLookup at h
  obtain ⟨ga, hga, h⟩ := except_bind_ok h
  exact processGraphLookupCore_names _ _ _ _ _ _ h

theorem handleDocumentsStage_names (evalExpr : BsonValue → Option BsonValue)
    (v : BsonValue) (q : Query) (c : AggregationPipelineBuildContext)
    (q' : Query) (c' : AggregationPipelineBuildContext)
    (h : handleDocumentsStage evalExpr v q c = .ok (q', c')) :
    outputColumnNames q' = ["documents_aggregate"] := by
  unfold handleDocumentsStage at h
  split at h
  · cases h
  · split at h
    · cases h
      rfl
    · cases h

theorem outputColumnNames_migrate_doc (q : Query)
    (c : AggregationPipelineBuildContext)
    (hq : outputColumnNames q = ["document"]) :
    outputColumnNames (migrateQueryToSubQuery q c).1 = ["document"] := by
  rw [outputColumnNames_migrate]
  split <;> simp [hq]

theorem outputColumnNames_addObjAgg (q : Query)
    (c : AggregationPipelineBuildContext)
    (hq : outputColumnNames q = ["document"]) :
    outputColumnNames (addBsonObjectAggFunction q c).1 = ["document"] := by
  rcases hm : migrateQueryToSubQuery q c with ⟨mq, c2⟩
  have hmq : outputColumnNames mq = ["document"] := by
    have := outputColumnNames_migrate_doc q c hq
    rw [hm] at this
    exact this
  simp only [addBsonObjectAggFunction, hm, outputColumnNames, Query.targetList,
    Query.unmk_mk]
  refine Eq.trans (map_resname_replaceHead _ _ ?_) hmq
  intro te
  rfl

theorem handleUnionWith_names (env : CompileEnv) (mutate : PipelineMutator)
    (v : BsonValue) (q : Query) (c : AggregationPipelineBuildContext)
    (q' : Query) (c' : AggregationPipelineBuildContext)
    (hq : outputColumnNames q = ["document"])
    (h : handleUnionWith env mutate v q c = .ok (q', c')) :
    outputColumnNames q' = ["document"] := by
  obtain ⟨hhead, hlen⟩ := outputColumnNames_singleton_headD q "document" hq
  unfold handleUnionWith at h
  dsimp only at h
  obtain ⟨cp, hcp, h⟩ := except_bind_ok h
  obtain ⟨cf, pv⟩ := cp
  split at h
  · injection h with h2
    have h3 := congrArg Prod.fst h2
    dsimp only at h3
    rw [← h3, outputColumnNames_migrate]
    split <;> exact congrArg (fun s => [s]) hhead
  · obtain ⟨u, hu, h⟩ := except_bind_ok h
    obtain ⟨mrq, hmrq, h⟩ := except_bind_ok h
    injection h with h2
    have h3 := congrArg Prod.fst h2
    dsimp only at h3
    rw [← h3, outputColumnNames_migrate]
    split <;> exact congrArg (fun s => [s]) hhead

theorem outputColumnNames_addArrayAgg_doc (q : Query)
    (c : AggregationPipelineBuildContext) (f : String)
    (hq : outputColumnNames q = ["document"]) :
    outputColumnNames (addBsonArrayAggFunction q c f true).1 = ["document"] := by
  rw [outputColumnNames_addArrayAgg]
  simp only [if_true]
  exact outputColumnNames_migrate_doc q c hq

theorem buildFacetUnionAllQuery_names (mutate : PipelineMutator)
    (numStages : Nat) (facetValue : BsonValue) (baseCte : Cte)
    (querySource databaseName : String) (sortSpec : BsonValue) (fq : Query)
    (hmut : ∀ qq b cc q2 c2, mutate qq b cc = .ok (q2, c2) →
      outputColumnNames q2 = ["document"])
    (hbase : outputColumnNames baseCte.ctequery = ["document"])
    (h : buildFacetUnionAllQuery mutate numStages facetValue baseCte
        querySource databaseName sortSpec = .ok fq) :
    outputColumnNames fq = ["document"] := by
  unfold buildFacetUnionAllQuery at h
  dsimp only at h
  split at h
  · obtain ⟨mq, hmq, h⟩ := except_bind_ok h
    obtain ⟨m1, m2⟩ := mq
    cases h
    rw [outputColumnNames_setCteLevelsUp]
    exact outputColumnNames_addArrayAgg_doc _ _ _ (hmut _ _ _ _ _ hmq)
  · obtain ⟨st, hst, h⟩ := except_bind_ok h
    have hinv : st.2.2.1 = none ∨ ∃ iq idx, st.2.2.1 = some (iq, idx) ∧
        outputColumnNames iq = ["document"] := by
      refine foldlM_except_invariant
        (fun st => st.2.2.1 = none ∨ ∃ iq idx, st.2.2.1 = some (iq, idx) ∧
          outputColumnNames iq = ["document"]) _ ?_ _ _ _ (Or.inl rfl) hst
      intro b a b2 hb hstep
      obtain ⟨mq, hmq, hstep⟩ := except_bind_ok hstep
      obtain ⟨m1, m2⟩ := mq
      cases hstep
      have hname : outputColumnNames (setCteLevelsUp baseCte.ctename
          ((addBsonArrayAggFunction m1 m2 a.1 true).2.numNestedLevels + 2)
          (addBsonArrayAggFunction m1 m2 a.1 true).1) = ["document"] := by
        rw [outputColumnNames_setCteLevelsUp]
        exact outputColumnNames_addArrayAgg_doc _ _ _ (hmut _ _ _ _ _ hmq)
      rcases hb with hb | ⟨iq, idx, hb, hiq⟩
      · rw [hb]
        exact Or.inr ⟨_, _, rfl, hname⟩
      · rw [hb]
        exact Or.inr ⟨_, _, rfl, hiq⟩
    cases h
    rcases hinv with hfi | ⟨iq, idx, hfi, hiq⟩
    · rw [hfi]
      obtain ⟨hh, _⟩ := outputColumnNames_singleton_headD _ _ hbase
      exact congrArg (fun s => [s]) hh
    · rw [hfi]
      obtain ⟨hh, _⟩ := outputColumnNames_singleton_headD _ _ hiq
      exact congrArg (fun s => [s]) hh

theorem handleFacet_names (mutate : PipelineMutator) (v : BsonValue)
    (q : Query) (c : AggregationPipelineBuildContext)
    (q' : Query) (c' : AggregationPipelineBuildContext)
    (hmut : ∀ qq b cc q2 c2, mutate qq b cc = .ok (q2, c2) →
      outputColumnNames q2 = ["document"])
    (hq : outputColumnNames q = ["document"])
    (h : handleFacet mutate v q c = .ok (q', c')) :
    outputColumnNames q' = ["document"] := by
  unfold handleFacet at h
  split at h
  · cases h
  · dsimp only at h
    obtain ⟨n, hn, h⟩ := except_bind_ok h
    obtain ⟨fq, hfq, h⟩ := except_bind_ok h
    have hbase : outputColumnNames
        (if q.targetList.length > 1 then migrateQueryToSubQuery q c
         else (q, c)).1 = ["document"] := by
      split
      · exact outputColumnNames_migrate_doc q c hq
      · exact hq
    have hfqn := buildFacetUnionAllQuery_names _ _ _ _ _ _ _ _ hmut hbase hfq
    cases h
    exact outputColumnNames_addObjAgg _ _ hfqn

theorem mem_graphBaseRows (docs : List GDoc) (start : List Int) (r : GRow) :
    r ∈ graphBaseRows docs start ↔
      ∃ d ∈ docs, start.contains d.connectTo = true ∧
        r = ⟨d, 0, [d.gid], false⟩ := by
  simp only [graphBaseRows, List.mem_map, List.mem_filter]
  constructor
  · rintro ⟨d, ⟨hd, hs⟩, rfl⟩
    exact ⟨d, hd, hs, rfl⟩
  · rintro ⟨d, hd, hs, rfl⟩
    exact ⟨d, ⟨hd, hs⟩, rfl⟩

theorem mem_graphExpandRow (docs : List GDoc) (r0 r : GRow) :
    r ∈ graphExpandRow docs r0 ↔
      ∃ d ∈ docs, r0.doc.connectFrom.contains d.connectTo = true ∧
        r = ⟨d, r0.depth + 1, r0.path ++ [d.gid], r0.path.contains d.gid⟩ := by
  simp only [graphExpandRow, List.mem_map, List.mem_filter]
  constructor
  · rintro ⟨d, ⟨hd, hs⟩, rfl⟩
    exact ⟨d, hd, hs, rfl⟩
  · rintro ⟨d, hd, hs, rfl⟩
    exact ⟨d, ⟨hd, hs⟩, rfl⟩

theorem mem_graphStepRows (docs : List GDoc) (rows : List GRow) (r : GRow) :
    r ∈ graphStepRows docs rows ↔
      ∃ r0 ∈ rows, r0.cyc = false ∧ r ∈ graphExpandRow docs r0 := by
  simp only [graphStepRows, List.mem_flatMap, List.mem_filter,
    Bool.not_eq_true']
  constructor
  · rintro ⟨r0, ⟨h1, h2⟩, h3⟩
    exact ⟨r0, h1, h2, h3⟩
  · rintro ⟨r0, h1, h2, h3⟩
    exact ⟨r0, ⟨h1, h2⟩, h3⟩

theorem graphLevels_inv (docs : List GDoc) (start : List Int) :
    ∀ (n : Nat) (r : GRow), r ∈ graphLevels docs start n →
      r.doc ∈ docs ∧ r.depth = n ∧ r.path.length = n + 1 ∧
      (∀ g ∈ r.path, g ∈ docs.map GDoc.gid) ∧
      (r.cyc = false → r.path.Nodup) ∧
      ReachN docs start n r.doc := by
  intro n
  induction n with
  | zero =>
    intro r hr
    rw [graphLevels, mem_graphBaseRows] at hr
    obtain ⟨d, hd, hs, rfl⟩ := hr
    refine ⟨hd, rfl, rfl, ?_, fun _ => List.nodup_singleton _, .base d hd hs⟩
    intro g hg
    rw [List.mem_singleton] at hg
    subst hg
    exact List.mem_map_of_mem _ hd
  | succ n ih =>
    intro r hr
    rw [graphLevels, mem_graphStepRows] at hr
    obtain ⟨r0, hr0, hcyc0, hexp⟩ := hr
    obtain ⟨hdoc0, hdep0, hlen0, hsub0, hnd0, hreach0⟩ := ih r0 hr0
    rw [mem_graphExpandRow] at hexp
    obtain ⟨d, hd, he, rfl⟩ := hexp
    refine ⟨hd, by simp [hdep0], by simp [hlen0], ?_, ?_, ?_⟩
    · intro g hg
      rw [List.mem_append, List.mem_singleton] at hg
      rcases hg with hg | rfl
      · exact hsub0 g hg
      · exact List.mem_map_of_mem _ hd
    · intro hnc
      have hnotin : d.gid ∉ r0.path := by simpa using hnc
      rw [← List.concat_eq_append]
      exact (hnd0 hcyc0).concat hnotin
    · exact .step n r0.doc d hreach0 hd he

theorem graphLevels_all_cyc (docs : List GDoc) (start : List Int) (n : Nat)
    (hn : docs.length ≤ n) :
    ∀ r ∈ graphLevels docs start n, r.cyc = true := by
  intro r hr
  by_contra hc
  rw [Bool.not_eq_true] at hc
  obtain ⟨_, _, hlen, hsub, hnd, _⟩ := graphLevels_inv docs start n r hr
  have hsp : List.Subperm r.path (docs.map GDoc.gid) :=
    (hnd hc).subperm (fun g hg => hsub g hg)
  have := hsp.length_le
  rw [hlen, List.length_map] at this
  omega

theorem graphLevels_empty (docs : List GDoc) (start : List Int) (m : Nat)
    (hm : docs.length < m) : graphLevels docs start m = [] := by
  cases m with
  | zero => omega
  | succ n =>
    rw [graphLevels, graphStepRows]
    have : (graphLevels docs start n).filter (fun r => !r.cyc) = [] := by
      rw [List.filter_eq_nil]
      intro r hr
      have := graphLevels_all_cyc docs start n (by omega) r hr
      simp [this]
    rw [this]
    rfl

theorem gid_inj (docs : List GDoc) (hnd : (docs.map GDoc.gid).Nodup)
    (d d' : GDoc) (hd : d ∈ docs) (hd' : d' ∈ docs) (h : d.gid = d'.gid) :
    d = d' :=
  List.inj_on_of_nodup_map hnd hd hd' h

theorem graph_complete_min (docs : List GDoc) (start : List Int)
    (hnd : (docs.map GDoc.gid).Nodup) :
    ∀ (n : Nat) (d : GDoc), ReachN docs start n d →
      (∀ k, ReachN docs start k d → n ≤ k) →
      ∃ r ∈ graphLevels docs start n, r.doc = d ∧ r.cyc = false ∧
        ∀ g ∈ r.path, ∃ d' ∈ docs, d'.gid = g ∧
          ∃ k, k ≤ n ∧ ReachN docs start k d' := by
  intro n
  induction n with
  | zero =>
    intro d hreach _
    cases hreach with
    | base d hd hs =>
      refine ⟨⟨d, 0, [d.gid], false⟩, ?_, rfl, rfl, ?_⟩
      · rw [graphLevels, mem_graphBaseRows]
        exact ⟨d, hd, hs, rfl⟩
      · intro g hg
        rw [List.mem_singleton] at hg
        subst hg
        exact ⟨d, hd, rfl, 0, Nat.le_refl 0, .base d hd hs⟩
  | succ n ih =>
    intro d hreach hmin
    cases hreach with
    | step n u d hu hd he =>
      have hminu : ∀ k, ReachN docs start k u → n ≤ k := by
        intro k hk
        have := hmin (k + 1) (.step k u d hk hd he)
        omega
      obtain ⟨r, hr, hrdoc, hrcyc, hrpath⟩ := ih u hu hminu
      have hnotin : d.gid ∉ r.path := by
        intro hmem
        obtain ⟨d', hd', hgid, k, hk, hkreach⟩ := hrpath d.gid hmem
        have : d' = d := gid_inj docs hnd d' d hd' hd hgid
        subst this
        have := hmin k hkreach
        omega
      refine ⟨⟨d, r.depth + 1, r.path ++ [d.gid], r.path.contains d.gid⟩,
        ?_, rfl, ?_, ?_⟩
      · rw [graphLevels, mem_graphStepRows]
        refine ⟨r, hr, hrcyc, ?_⟩
        rw [mem_graphExpandRow]
        exact ⟨d, hd, by rw [hrdoc]; exact he, rfl⟩
      · simpa using hnotin
      · intro g hg
        rw [List.mem_append, List.mem_singleton] at hg
        rcases hg with hg | rfl
        · obtain ⟨d', hd', hgid, k, hk, hkreach⟩ := hrpath g hg
          exact ⟨d', hd', hgid, k, by omega, hkreach⟩
        · exact ⟨d, hd, rfl, n + 1, Nat.le_refl _, .step n u d hu hd he⟩

theorem depthFoldMin_eq_none (rows : List GRow) :
    depthFoldMin rows = none ↔ rows = [] := by
  cases rows with
  | nil => simp [depthFoldMin]
  | cons r l =>
    simp only [depthFoldMin, List.foldr_cons]
    constructor
    · intro h
      split at h <;> cases h
    · intro h
      cases h

theorem depthFoldMin_lower (n : Nat) :
    ∀ (rows : List GRow) (m : Nat), (∀ r ∈ rows, n ≤ r.depth) →
      depthFoldMin rows = some m → n ≤ m := by
  intro rows
  induction rows with
  | nil => intro m _ h; cases h
  | cons r l ih =>
    intro m hall h
    simp only [depthFoldMin, List.foldr_cons] at h
    rcases hl : l.foldr (fun r acc =>
        match acc with
        | none => some r.depth
        | some m => some (min r.depth m)) none with _ | m0
    · rw [hl] at h
      cases h
      exact hall r (List.mem_cons_self r l)
    · rw [hl] at h
      cases h
      have h1 := hall r (List.mem_cons_self r l)
      have h2 := ih m0 (fun x hx => hall x (List.mem_cons_of_mem r hx)) hl
      omega

theorem depthFoldMin_le (rows : List GRow) :
    ∀ m, depthFoldMin rows = some m → ∀ r ∈ rows, m ≤ r.depth := by
  induction rows with
  | nil => intro m h r hr; cases hr
  | cons r l ih =>
    intro m h
    simp only [depthFoldMin, List.foldr_cons] at h
    rcases hl : l.foldr (fun r acc =>
        match acc with
        | none => some r.depth
        | some m => some (min r.depth m)) none with _ | m0
    · rw [hl] at h
      cases h
      intro x hx
      rcases List.mem_cons.mp hx with rfl | hx
      · exact Nat.le_refl _
      · have hnil : l = [] := (depthFoldMin_eq_none l).mp hl
        rw [hnil] at hx
        cases hx
    · rw [hl] at h
      cases h
      intro x hx
      rcases List.mem_cons.mp hx with rfl | hx
      · exact Nat.min_le_left _ _
      · exact Nat.le_trans (Nat.min_le_right _ _) (ih m0 hl x hx)

theorem depthFoldMin_eq_some (rows : List GRow) (n : Nat)
    (hall : ∀ r ∈ rows, n ≤ r.depth) (hex : ∃ r ∈ rows, r.depth = n) :
    depthFoldMin rows = some n := by
  rcases hfold : depthFoldMin rows with _ | m
  · rw [depthFoldMin_eq_none] at hfold
    subst hfold
    obtain ⟨r, hr, _⟩ := hex
    cases hr
  · obtain ⟨r, hr, hrd⟩ := hex
    have h1 := depthFoldMin_le rows m hfold r hr
    have h2 := depthFoldMin_lower n rows m hall hfold
    have : m = n := by omega
    subst this
    rfl

theorem mem_graphAllRows (docs : List GDoc) (start : List Int) (r : GRow) :
    r ∈ graphAllRows docs start ↔
      ∃ n, n < docs.length + 1 ∧ r ∈ graphLevels docs start n := by
  simp [graphAllRows, List.mem_flatMap, List.mem_range]

theorem graph_sound (docs : List GDoc) (start : List Int) (r : GRow)
    (hr : r ∈ graphAllRows docs start) :
    r.doc ∈ docs ∧ ReachN docs start r.depth r.doc := by
  rw [mem_graphAllRows] at hr
  obtain ⟨n, _, hr⟩ := hr
  obtain ⟨hdoc, hdep, _, _, _, hreach⟩ := graphLevels_inv docs start n r hr
  rw [hdep]
  exact ⟨hdoc, hreach⟩

theorem graph_first_seen (docs : List GDoc) (start : List Int) (d : GDoc)
    (n : Nat) (hnd : (docs.map GDoc.gid).Nodup) (hd : d ∈ docs)
    (hn : ReachN docs start n d) (hmin : ∀ k, ReachN docs start k d → n ≤ k) :
    graphMinDepth docs start d.gid = some n := by
  obtain ⟨r, hr, hrdoc, hrcyc, _⟩ := graph_complete_min docs start hnd n d hn hmin
  obtain ⟨_, hdep, hlen, hsub, hndp, _⟩ := graphLevels_inv docs start n r hr
  have hbound : n < docs.length + 1 := by
    have hsp : List.Subperm r.path (docs.map GDoc.gid) :=
      (hndp hrcyc).subperm (fun g hg => hsub g hg)
    have := hsp.length_le
    rw [hlen, List.length_map] at this
    omega
  rw [graphMinDepth]
  apply depthFoldMin_eq_some
  · intro x hx
    rw [List.mem_filter] at hx
    obtain ⟨hxall, hxgid⟩ := hx
    have hxg : x.doc.gid = d.gid := by simpa using hxgid
    obtain ⟨hxdoc, hxreach⟩ := graph_sound docs start x hxall
    have : x.doc = d := gid_inj docs hnd x.doc d hxdoc hd hxg
    rw [this] at hxreach
    exact hmin x.depth hxreach
  · refine ⟨r, ?_, hdep⟩
    rw [List.mem_filter, mem_graphAllRows]
    refine ⟨⟨n, hbound, hr⟩, ?_⟩
    simp [hrdoc]

theorem graph_reached_only (docs : List GDoc) (start : List Int) (d : GDoc)
    (hnd : (docs.map GDoc.gid).Nodup) (hd : d ∈ docs)
    (hne : graphMinDepth docs start d.gid ≠ none) :
    Reach docs start d := by
  rw [graphMinDepth] at hne
  rcases hflt : (graphAllRows docs start).filter
      (fun r => r.doc.gid = d.gid) with _ | ⟨r, l⟩
  · rw [hflt] at hne
    exact absurd ((depthFoldMin_eq_none []).mpr rfl) hne
  · have hr : r ∈ (graphAllRows docs start).filter
        (fun r => r.doc.gid = d.gid) := by
      rw [hflt]
      exact List.mem_cons_self r l
    rw [List.mem_filter] at hr
    obtain ⟨hrall, hrgid⟩ := hr
    have hrg : r.doc.gid = d.gid := by simpa using hrgid
    obtain ⟨hrdoc, hrreach⟩ := graph_sound docs start r hrall
    have : r.doc = d := gid_inj docs hnd r.doc d hrdoc hd hrg
    rw [this] at hrreach
    exact ⟨r.depth, hrreach⟩

theorem buildRecursiveGraphLookupQuery_shape (env : CompileEnv)
    (ps : String) (args : GraphLookupArgs)
    (pc : AggregationPipelineBuildContext) (bce : Cte) (blu : Nat)
    (gq : Query)
    (h : buildRecursiveGraphLookupQuery env ps args pc bce blu = .ok gq) :
    ∃ inner : Query,
      rteSubqueryOf (gq.rtable.headD (.relationRte "" [])) = some inner ∧
      inner.hasDistinctOn = true ∧
      inner.distinctClause = [bsonSortGroupClause 1] ∧
      inner.sortClause = [bsonSortGroupClause 1, bsonSortGroupClause 2] ∧
      ((inner.targetList.drop 1).headD dummyTargetEntry).expr = .varE 1 3 0 ∧
      ((inner.targetList.drop 1).headD dummyTargetEntry).ressortgroupref = 1 ∧
      ((inner.targetList.drop 2).headD dummyTargetEntry).expr = .varE 1 2 0 ∧
      ((inner.targetList.drop 2).headD dummyTargetEntry).ressortgroupref = 2 ∧
      inner.hasRecursive = true ∧
      ∃ cte, inner.cteList = [cte] ∧ cte.cterecursive = true ∧
        cte.ctecolnames =
          ["document", "depth", "baseDocId", "is_cycle", "path"] ∧
        ∃ cyc, cte.loweredCycle = some cyc ∧
          cyc.cycleColList = ["baseDocId"] ∧
          cyc.cycleMarkColumn = "is_cycle" ∧
          cyc.cyclePathColumn = "path" ∧
          cyc.cycleMarkDefault = false ∧ cyc.cycleMarkValue = true := by
  unfold buildRecursiveGraphLookupQuery at h
  dsimp only at h
  obtain ⟨bsq, hbsq, h⟩ := except_bind_ok h
  cases h
  exact ⟨_, rfl, rfl, rfl, rfl, rfl, rfl, rfl, rfl, rfl, _, rfl, rfl, rfl,
    _, rfl, rfl, rfl, rfl, rfl, rfl⟩

theorem buildGraphLookupCteQuery_shape (env : CompileEnv) (ps : String)
    (bce : Cte) (args : GraphLookupArgs)
    (pc : AggregationPipelineBuildContext) (q2 : Query)
    (h : buildGraphLookupCteQuery env ps bce args pc = .ok q2) :
    ∃ rsq : Query, q2.targetList.map (fun te => te.expr) =
      [.varE 1 1 0,
       .coalesceE [.subLinkE rsq,
         .constBson (.doc [(args.asField, .arr [])])]] := by
  unfold buildGraphLookupCteQuery at h
  dsimp only at h
  obtain ⟨rsq, hrsq, h⟩ := except_bind_ok h
  cases h
  exact ⟨rsq, rfl⟩

/-! ## Claim C10 -/

/-- Claim C10: when the source collection binding is absent (the source
collection does not exist), `HandleMerge` returns the input plan
unchanged without error; the statement holds for every environment —
hence for every catalog and creation hook — so the target collection is
neither resolved, validated, nor created, and no merge actions are
added to the returned plan. -/
theorem c10_handleMerge_missing_source_identity
    (env : CompileEnv) (v : BsonValue) (q : Query)
    (c : AggregationPipelineBuildContext)
    (hver : env.clusterVersionAtLeast119 = true)
    (hmerge : env.enableMergeStage = true)
    (htxn : env.inTransactionBlock = false)
    (hsrc : c.mongoCollection = none) :
    handleMerge env v q c = .ok (q, c) := by
  unfold handleMerge
  rw [hver, hmerge, htxn, hsrc]
  simp

/-- Witness for C10 at a concrete environment and context. -/
theorem c10_handleMerge_missing_source_identity_witness :
    handleMerge { now := 0 } (.utf8 "target") docInputQuery {} =
      .ok (docInputQuery, ({} : AggregationPipelineBuildContext)) :=
  c10_handleMerge_missing_source_identity _ _ _ _ rfl rfl rfl rfl

/-! ## Claim C8 -/

/-- Claim C8: `$documents` is accepted only as the very first stage of a
pipeline — stage number 0 with an empty range table — failing with an
error otherwise; and its argument, evaluated as an expression, must yield
an array, failing with an error otherwise (and succeeding when it does). -/
theorem c8_documents_first_stage_and_array :
    (∀ evalE v (q : Query) c, (q.rtable ≠ [] ∨ c.stageNum ≠ 0) →
      handleDocumentsStage evalE v q c = .error .badValue) ∧
    (∀ evalE v (q : Query) c, q.rtable = [] → c.stageNum = 0 →
      (∀ xs, evalE v ≠ some (.arr xs)) →
      handleDocumentsStage evalE v q c = .error .location5858203) ∧
    (∀ evalE v (q : Query) c xs, q.rtable = [] → c.stageNum = 0 →
      evalE v = some (.arr xs) →
      ∃ q' c', handleDocumentsStage evalE v q c = .ok (q', c')) := by
  refine ⟨?_, ?_, ?_⟩
  · intro evalE v q c h
    unfold handleDocumentsStage
    have hcond : q.rtable.length ≠ 0 ∨ c.stageNum ≠ 0 := by
      rcases h with h | h
      · exact Or.inl (by simpa using h)
      · exact Or.inr h
    rw [if_pos hcond]
  · intro evalE v q c hrt hsn hne
    unfold handleDocumentsStage
    rw [if_neg (by simp [hrt, hsn])]
    cases hev : evalE v with
    | none => rfl
    | some bv =>
      cases bv with
      | arr xs => exact absurd hev (hne xs)
      | eod => rfl
      | utf8 s => rfl
      | int32 n => rfl
      | boolVal b => rfl
      | doc fs => rfl
      | other t => rfl
  · intro evalE v q c xs hrt hsn hev
    unfold handleDocumentsStage
    rw [if_neg (by simp [hrt, hsn]), hev]
    exact ⟨_, _, rfl⟩

/-- Witness for C8: a literal one-document array as first stage compiles,
a scalar fails, and a misplaced stage fails. -/
theorem c8_documents_first_stage_and_array_witness :
    (∃ q' c',
      handleDocumentsStage (fun v => some v) (.arr [.doc []]) (.mk {}) {} =
        .ok (q', c')) ∧
    handleDocumentsStage (fun v => some v) (.utf8 "x") (.mk {}) {} =
      .error .location5858203 ∧
    handleDocumentsStage (fun v => some v) (.arr []) (.mk {})
      { stageNum := 3 } = .error .badValue := by
  refine ⟨?_, ?_, ?_⟩
  · exact (c8_documents_first_stage_and_array.2.2) (fun v => some v)
      (.arr [.doc []]) (.mk {}) {} [.doc []] rfl rfl rfl
  · exact (c8_documents_first_stage_and_array.2.1) (fun v => some v) (.utf8 "x")
      (.mk {}) {} rfl rfl (by intro xs h; simp at h)
  · exact (c8_documents_first_stage_and_array.1) (fun v => some v) (.arr [])
      (.mk {}) { stageNum := 3 } (Or.inr (by decide))

/-! ## Claim C6 -/

/-- Claim C6: a `$lookup` compiled at nested-pipeline depth greater than
the maximum (20) fails with the `LimitExceeded` guard error before
parsing or plan construction, while at depth equal to the maximum a
`$lookup` compiles: concretely, a single lookup at depth 20 compiles; a
two-deep nested chain whose inner lookup sits at depth 20 compiles; and
the same chain started one level deeper fails with the guard's error,
raised by the nested compile's depth guard rather than by unbounded
recursion (the embedded compiler is structurally terminating). -/
theorem c6_lookup_depth_guard :
    (∀ env mutate w v (q : Query) c,
      c.nestedPipelineLevel > maximumLookupPipelineDepth →
      handleLookup env mutate w v q c = .error .maxSubPipelineDepthExceeded) ∧
    (handleLookup witnessEnv (mutateLookupOnly witnessEnv emptyWriteSet 1)
      emptyWriteSet (lookupSpecChain 0) docInputQuery
      { nestedPipelineLevel := maximumLookupPipelineDepth }).isOk = true ∧
    (handleLookup witnessEnv (mutateLookupOnly witnessEnv emptyWriteSet 2)
      emptyWriteSet (lookupSpecChain 1) docInputQuery
      { nestedPipelineLevel := maximumLookupPipelineDepth - 1 }).isOk = true ∧
    handleLookup witnessEnv (mutateLookupOnly witnessEnv emptyWriteSet 2)
      emptyWriteSet (lookupSpecChain 1) docInputQuery
      { nestedPipelineLevel := maximumLookupPipelineDepth } =
      .error .maxSubPipelineDepthExceeded := by
  refine ⟨?_, ?_, ?_, ?_⟩
  · intro env mutate w v q c h
    unfold handleLookup
    rw [if_pos h]
  · rfl
  · rfl
  · rfl

/-- Witness for C6's guard statement at a concrete over-deep context. -/
theorem c6_lookup_depth_guard_witness :
    handleLookup witnessEnv (fun q _ c => .ok (q, c)) emptyWriteSet
      (.utf8 "bad") docInputQuery { nestedPipelineLevel := 21 } =
      .error .maxSubPipelineDepthExceeded :=
  c6_lookup_depth_guard.1 _ _ _ _ _ _ (by decide)

/-! ## Claim C3 -/

/-- Claim C3, counterexample: compiling the same `$merge` stage against
the same pipeline, source binding, and catalog twice — with only the
ambient clock differing between the two compiles — yields structurally
different plans, because `MakeActionWhenNotMatched` embeds
`GetCurrentTimestamp()` as the inserted `creation_time` constant. -/
theorem c3_merge_not_deterministic :
    handleMerge (c3Env 0) (.utf8 "target") docInputQuery c3SourceCtx ≠
      handleMerge (c3Env 1) (.utf8 "target") docInputQuery c3SourceCtx := by
  intro h
  have h0 : mergePlanCreationTs (handleMerge (c3Env 0) (.utf8 "target")
      docInputQuery c3SourceCtx) = some 0 := rfl
  have h1 : mergePlanCreationTs (handleMerge (c3Env 1) (.utf8 "target")
      docInputQuery c3SourceCtx) = some 1 := rfl
  rw [h, h1] at h0
  exact absurd h0 (by decide)

/-- Claim C3, amended: compiling the same (pipeline, collection binding)
pair twice yields structurally identical plans for `$lookup`,
`$graphLookup` and `$unionWith` even across different clock readings
(`$facet` and `$documents` read no ambient state in the embedding at
all), while `$merge` yields identical plans exactly when the two
compiles read the same timestamp — its when-not-matched insert action
embeds the compile-time clock. -/
theorem c3_determinism_amended :
    (∀ (env : CompileEnv) (t' : Int) mutate w v (q : Query) c,
      handleLookup env mutate w v q c =
        handleLookup { env with now := t' } mutate w v q c) ∧
    (∀ (env : CompileEnv) (t' : Int) v (q : Query) c,
      handleGraphLookup env v q c =
        handleGraphLookup { env with now := t' } v q c) ∧
    (∀ (env : CompileEnv) (t' : Int) mutate v (q : Query) c,
      handleUnionWith env mutate v q c =
        handleUnionWith { env with now := t' } mutate v q c) ∧
    (∀ (env : CompileEnv) (t' : Int) v (q : Query) c, env.now = t' →
      handleMerge env v q c = handleMerge { env with now := t' } v q c) := by
  refine ⟨?_, ?_, ?_, ?_⟩
  · intro env t' mutate w v q c; rfl
  · intro env t' v q c; rfl
  · intro env t' mutate v q c; rfl
  · intro env t' v q c h
    cases env
    cases h
    rfl

/-- Witness for C3's amended statement at a concrete environment. -/
theorem c3_determinism_amended_witness :
    handleMerge (c3Env 5) (.utf8 "target") docInputQuery c3SourceCtx =
      handleMerge { c3Env 5 with now := 5 } (.utf8 "target") docInputQuery
        c3SourceCtx :=
  c3_determinism_amended.2.2.2 (c3Env 5) 5 (.utf8 "target") docInputQuery
    c3SourceCtx rfl

/-! ## Claim C9 -/

theorem tryGetSingleElement_eq_some {v : BsonValue} {kv : String × BsonValue}
    (h : tryGetSingleElement v = some kv) : v = .doc [kv] := by
  cases v with
  | doc fs =>
    cases fs with
    | nil => simp [tryGetSingleElement] at h
    | cons a l =>
      cases l with
      | nil =>
        simp only [tryGetSingleElement, Option.some.injEq] at h
        rw [h]
      | cons b m => simp [tryGetSingleElement] at h
  | eod => simp [tryGetSingleElement] at h
  | utf8 s => simp [tryGetSingleElement] at h
  | int32 n => simp [tryGetSingleElement] at h
  | boolVal b => simp [tryGetSingleElement] at h
  | arr xs => simp [tryGetSingleElement] at h
  | other t => simp [tryGetSingleElement] at h

theorem parseLookupField_preserves_noOutMerge (b : LookupArgs) (k : String)
    (v : BsonValue) (b' : LookupArgs)
    (hb : lookupPipelineNoOutMerge b.pipeline)
    (h : parseLookupField b k v = .ok b') :
    lookupPipelineNoOutMerge b'.pipeline := by
  unfold parseLookupField at h
  repeat' split at h
  all_goals try cases h
  all_goals try exact hb
  rename_i stages
  obtain ⟨u, hu, hrest⟩ := except_bind_ok h
  cases u
  cases hrest
  intro stage hmem kv hkv
  obtain ⟨k1, v1⟩ := kv
  have hstage := tryGetSingleElement_eq_some hkv
  subst hstage
  have hg := foldlM_unit_mem _ stages hu _ hmem
  by_cases hout : k1 = "$out" ∨ k1 = "$merge"
  · rw [show getPipelineStage (.doc [(k1, v1)]) = .ok (k1, v1) from rfl] at hg
    simp only [Bind.bind, Except.bind] at hg
    rw [if_pos hout] at hg
    cases hg
  · exact ⟨fun hc => hout (Or.inl hc), fun hc => hout (Or.inr hc)⟩

theorem parseLookupStage_pipeline_noOutMerge (v : BsonValue)
    (args : LookupArgs) (h : parseLookupStage v = .ok args) :
    lookupPipelineNoOutMerge args.pipeline := by
  cases v with
  | doc fields =>
    unfold parseLookupStage at h
    obtain ⟨args0, hfold, hpost⟩ := except_bind_ok h
    have hP : lookupPipelineNoOutMerge args0.pipeline :=
      foldlM_except_invariant
        (fun a : LookupArgs => lookupPipelineNoOutMerge a.pipeline)
        (fun args p => parseLookupField args p.1 p.2)
        (fun b p b' hb hok =>
          parseLookupField_preserves_noOutMerge b p.1 p.2 b' hb hok)
        fields {} args0
        (by intro stage hmem; simp [pipelineStageDocs] at hmem) hfold
    have hpipe : args.pipeline = args0.pipeline := by
      simp only at hpost
      split_ifs at hpost <;> cases hpost <;> rfl
    rw [hpipe]
    exact hP
  | eod => simp [parseLookupStage] at h
  | utf8 s => simp [parseLookupStage] at h
  | int32 n => simp [parseLookupStage] at h
  | boolVal b => simp [parseLookupStage] at h
  | arr xs => simp [parseLookupStage] at h
  | other t => simp [parseLookupStage] at h

/-- Claim C9: a `$lookup` whose `pipeline` argument contains a `$out` or
`$merge` stage is rejected while parsing the lookup spec: parse success
excludes such stages, a parse failure is returned by `HandleLookup`
before any plan construction (for every dispatcher, plan and context
below the depth limit), and the concrete offending spec fails with the
`not allowed to be used within a $lookup stage` error (code 51047). -/
theorem c9_lookup_rejects_out_merge_in_pipeline :
    (∀ v args, parseLookupStage v = .ok args →
      lookupPipelineNoOutMerge args.pipeline) ∧
    (∀ env mutate w v (q : Query) c e,
      c.nestedPipelineLevel ≤ maximumLookupPipelineDepth →
      parseLookupStage v = .error e →
      handleLookup env mutate w v q c = .error e) ∧
    (parseLookupStage (.doc [("from", .utf8 "coll"), ("as", .utf8 "x"),
        ("pipeline", .arr [.doc [("$out", .utf8 "t")]])]) =
      .error .location51047) := by
  refine ⟨parseLookupStage_pipeline_noOutMerge, ?_, rfl⟩
  intro env mutate w v q c e hle hparse
  unfold handleLookup
  rw [if_neg (Nat.not_lt.mpr hle), hparse]
  rfl

/-- Witness for C9 at a concrete spec, dispatcher and context. -/
theorem c9_lookup_rejects_out_merge_in_pipeline_witness :
    handleLookup witnessEnv (fun q _ c => .ok (q, c)) emptyWriteSet
      (.doc [("from", .utf8 "coll"), ("as", .utf8 "x"),
        ("pipeline", .arr [.doc [("$merge", .utf8 "t")]])]) docInputQuery {} =
      .error .location51047 :=
  c9_lookup_rejects_out_merge_in_pipeline.2.1 witnessEnv _ emptyWriteSet _
    docInputQuery {} .location51047 (by decide) rfl

/-! ## Claim C7 -/

theorem validateFacetBranch_ok (p : BsonValue)
    (h : validateFacetBranch p = .ok ()) :
    (∃ xs, p = .arr xs) ∧
      ∀ stage ∈ pipelineStageDocs p, ∀ kv : String × BsonValue,
        tryGetSingleElement stage = some kv → kv.1 ∉ bannedFacetStages := by
  cases p with
  | arr xs =>
    refine ⟨⟨xs, rfl⟩, ?_⟩
    intro stage hmem kv hkv
    obtain ⟨k1, v1⟩ := kv
    have hstage := tryGetSingleElement_eq_some hkv
    subst hstage
    have hg := foldlM_unit_mem _ xs h _ hmem
    intro hbanned
    rw [show getPipelineStage (.doc [(k1, v1)]) = .ok (k1, v1) from rfl] at hg
    simp only [Bind.bind, Except.bind] at hg
    rw [if_pos (by simpa using hbanned)] at hg
    cases hg
  | eod => cases h
  | utf8 s => cases h
  | int32 n => cases h
  | boolVal b => cases h
  | doc fs => cases h
  | other t => cases h

theorem validateFacet_fold_ok :
    ∀ (fields : List (String × BsonValue)) (n0 n : Nat),
      fields.foldlM
        (fun (m : Nat) (p : String × BsonValue) => do
          validateFacetBranch p.2
          Except.ok (m + 1)) n0 = .ok n →
      n = n0 + fields.length ∧
        ∀ p ∈ fields, validateFacetBranch p.2 = .ok () := by
  intro fields
  induction fields with
  | nil =>
    intro n0 n h
    simp only [List.foldlM_nil] at h
    cases h
    exact ⟨by simp, by intro p hp; cases hp⟩
  | cons p rest ih =>
    intro n0 n h
    rw [List.foldlM_cons] at h
    obtain ⟨n1, hf, hrest⟩ := except_bind_ok h
    obtain ⟨u, hbr, hok⟩ := except_bind_ok hf
    cases u
    cases hok
    obtain ⟨hlen, hall⟩ := ih (n0 + 1) n hrest
    refine ⟨by simp [hlen]; omega, ?_⟩
    intro p2 hp2
    rcases List.mem_cons.mp hp2 with rfl | hmem
    · exact hbr
    · exact hall p2 hmem

/-- Claim C7: a `$facet` spec that is not a document fails (15947), an
empty document fails (40169); on success every branch is an array of
single-field stage documents none of which is a banned stage, a branch
led by a banned stage fails with `StageNotAllowedInFacet` (40600), and a
validation failure is returned by `HandleFacet` for every branch
compiler — before any branch is compiled. -/
theorem c7_facet_validation :
    (∀ v, (∀ fs, v ≠ .doc fs) → validateFacet v = .error .location15947) ∧
    (validateFacet (.doc []) = .error .location40169) ∧
    (∀ fields n, validateFacet (.doc fields) = .ok n →
      n = fields.length ∧ ∀ p ∈ fields, ∃ xs, p.2 = .arr xs) ∧
    (∀ fields n, validateFacet (.doc fields) = .ok n →
      facetNoBannedStages (.doc fields)) ∧
    (∀ name, name ∈ bannedFacetStages → ∀ k x rest,
      validateFacet (.doc ((k, .arr [.doc [(name, x)]]) :: rest)) =
        .error .location40600) ∧
    (∀ mutate v (q : Query) c e, c.nestedPipelineLevel = 0 →
      validateFacet v = .error e → handleFacet mutate v q c = .error e) := by
  refine ⟨?_, rfl, ?_, ?_, ?_, ?_⟩
  · intro v hv
    cases v with
    | doc fs => exact absurd rfl (hv fs)
    | eod => rfl
    | utf8 s => rfl
    | int32 n => rfl
    | boolVal b => rfl
    | arr xs => rfl
    | other t => rfl
  · intro fields n h
    unfold validateFacet at h
    obtain ⟨n0, hfold, hpost⟩ := except_bind_ok h
    obtain ⟨hlen, hall⟩ := validateFacet_fold_ok fields 0 n0 hfold
    have hn : n = n0 := by
      by_cases hz : n0 = 0
      · rw [if_pos hz] at hpost; cases hpost
      · rw [if_neg hz] at hpost; cases hpost; rfl
    refine ⟨by omega, ?_⟩
    intro p hp
    exact (validateFacetBranch_ok p.2 (hall p hp)).1
  · intro fields n h
    unfold validateFacet at h
    obtain ⟨n0, hfold, hpost⟩ := except_bind_ok h
    obtain ⟨hlen, hall⟩ := validateFacet_fold_ok fields 0 n0 hfold
    intro branch hbranch stage hstage kv hkv
    exact (validateFacetBranch_ok branch.2 (hall branch hbranch)).2 stage hstage
      kv hkv
  · intro name hname k x rest
    show (do
      let numStages ←
        ((k, BsonValue.arr [BsonValue.doc [(name, x)]]) :: rest).foldlM
          (fun (n : Nat) (p : String × BsonValue) => do
            validateFacetBranch p.2
            Except.ok (n + 1)) 0
      if numStages = 0 then Except.error MongoCode.location40169
      else Except.ok numStages) = Except.error MongoCode.location40600
    rw [List.foldlM_cons]
    have hbr : validateFacetBranch (.arr [.doc [(name, x)]]) =
        .error .location40600 := by
      show ([BsonValue.doc [(name, x)]].foldlM
        (fun (_ : Unit) (stage : BsonValue) => do
          let p ← getPipelineStage stage
          if bannedFacetStages.contains p.1 then
            Except.error MongoCode.location40600
          else Except.ok ()) ()) = Except.error MongoCode.location40600
      rw [List.foldlM_cons]
      rw [show getPipelineStage (.doc [(name, x)]) = .ok (name, x) from rfl]
      simp only [Bind.bind, Except.bind]
      rw [if_pos (show bannedFacetStages.contains name = true by
        simpa using hname)]
    simp only [Bind.bind, Except.bind, hbr]
  · intro mutate v q c e h0 hval
    unfold handleFacet
    rw [if_neg (by omega), hval]
    rfl

/-- Witness for C7 at a concrete facet document with a `$out` branch. -/
theorem c7_facet_validation_witness :
    handleFacet (fun q _ c => .ok (q, c))
      (.doc [("a", .arr [.doc [("$out", .utf8 "t")]])]) docInputQuery {} =
      .error .location40600 :=
  c7_facet_validation.2.2.2.2.2 _ _ docInputQuery {} .location40600 rfl
    (c7_facet_validation.2.2.2.2.1 "$out" (by decide) "a" (.utf8 "t") [])

/-! ## Claim C4 -/

theorem dottedPre_conflicts_firstSeg (p f : String)
    (h : isDottedPre p f = true) :
    svStartsWith p (if (stringViewFindPre f '.').length ≠ 0
        then stringViewFindPre f '.' else f) = true ∨
      svStartsWith (if (stringViewFindPre f '.').length ≠ 0
        then stringViewFindPre f '.' else f) p = true := by
  set f1 := if (stringViewFindPre f '.').length ≠ 0
    then stringViewFindPre f '.' else f with hf1def
  have hf1 : f1.data <+: f.data := by
    rw [hf1def]
    by_cases hpre : (stringViewFindPre f '.').length ≠ 0
    · rw [if_pos hpre]
      unfold stringViewFindPre
      by_cases hc : f.data.contains '.'
      · rw [if_pos hc]
        exact List.takeWhile_prefix _
      · rw [if_neg hc]
        exact List.nil_prefix
    · rw [if_neg hpre]
  have hp : p.data <+: f.data := by
    unfold isDottedPre at h
    rcases Bool.or_eq_true_iff.mp h with heq | hdot
    · rw [show p = f from beq_iff_eq.mp heq]
    · have h2 : (p ++ ".").data <+: f.data :=
        List.isPrefixOf_iff_prefix.mp hdot
      have h3 : p.data <+: (p ++ ".").data := by
        rw [String.data_append]
        exact List.prefix_append _ _
      exact h3.trans h2
  rcases List.prefix_or_prefix_of_prefix hp hf1 with h1 | h1
  · exact Or.inr (List.isPrefixOf_iff_prefix.mpr h1)
  · exact Or.inl (List.isPrefixOf_iff_prefix.mpr h1)

/-- Claim C4: `CanInlineInnerLookupPipeline` is true whenever `from` is
absent (agnostic) or there is no localField/foreignField join; otherwise,
when it is true no stage of the nested pipeline writes to `local_field`
or any dotted prefix of it (the per-stage write-set is the external
evaluator's syntactic property, and the write/path intersection test
follows `CanInlineLookupStageLookup`). -/
theorem c4_can_inline_decision :
    (∀ w (args : LookupArgs), args.from_ = "" →
      canInlineInnerLookupPipeline w args = true) ∧
    (∀ w (args : LookupArgs), args.hasLookupMatch = false →
      canInlineInnerLookupPipeline w args = true) ∧
    (∀ w (args : LookupArgs), args.from_ ≠ "" → args.hasLookupMatch = true →
      canInlineInnerLookupPipeline w args = true →
      ∀ stage ∈ pipelineStageDocs args.pipeline, ∀ p ∈ w stage,
        isDottedPre p args.localField = false) := by
  refine ⟨?_, ?_, ?_⟩
  · intro w args h
    unfold canInlineInnerLookupPipeline
    rw [if_pos h]
  · intro w args h
    unfold canInlineInnerLookupPipeline
    split
    · rfl
    · rw [if_pos (by simp [h])]
  · intro w args hfrom hmatch hcan stage hstage p hp
    unfold canInlineInnerLookupPipeline at hcan
    rw [if_neg hfrom, if_neg (by simp [hmatch])] at hcan
    by_contra hdot
    have hdot' : isDottedPre p args.localField = true := by
      cases hh : isDottedPre p args.localField
      · exact absurd hh hdot
      · rfl
    rcases hc : args.pipeline with _ | s | n | b | fs | stages | t <;>
      rw [hc] at hcan hstage <;>
      simp only [pipelineStageDocs] at hstage <;>
      try exact absurd hstage (List.not_mem_nil _)
    have hcan2 : stages.all (fun st => !stageWriteConflicts w st
        (if (stringViewFindPre args.localField '.').length ≠ 0
          then stringViewFindPre args.localField '.'
          else args.localField)) = true := hcan
    have hconf := List.all_eq_true.mp hcan2 stage hstage
    rcases dottedPre_conflicts_firstSeg p args.localField hdot' with h1 | h1
    · have hcf : stageWriteConflicts w stage
          (if (stringViewFindPre args.localField '.').length ≠ 0
            then stringViewFindPre args.localField '.'
            else args.localField) = true := by
        unfold stageWriteConflicts
        exact List.any_eq_true.mpr
          ⟨p, hp, by rw [Bool.or_eq_true]; exact Or.inl h1⟩
      rw [hcf] at hconf
      cases hconf
    · have hcf : stageWriteConflicts w stage
          (if (stringViewFindPre args.localField '.').length ≠ 0
            then stringViewFindPre args.localField '.'
            else args.localField) = true := by
        unfold stageWriteConflicts
        exact List.any_eq_true.mpr
          ⟨p, hp, by rw [Bool.or_eq_true]; exact Or.inr h1⟩
      rw [hcf] at hconf
      cases hconf

/-- Witness for C4: a concrete correlated lookup whose pipeline writes
only to an unrelated path is inlinable, and that path is indeed not the
local field nor a dotted prefix of it. -/
theorem c4_can_inline_decision_witness :
    isDottedPre "c" "a.b" = false :=
  c4_can_inline_decision.2.2 (fun _ => ["c"])
    { from_ := "coll", lookupAs := "j", localField := "a.b",
      foreignField := "b", pipeline := .arr [.doc [("$addFields", .utf8 "x")]],
      hasLookupMatch := true }
    (by decide) rfl rfl (.doc [("$addFields", .utf8 "x")])
    (by simp [pipelineStageDocs]) "c" (by simp)

/-! ## Claim C1 -/

/-- Claim C1, counterexample: `HandleDocumentsStage` accepts a valid
one-column input plan but names its single output column
`documents_aggregate`, not `document`. -/
theorem c1_documents_output_not_document :
    exceptOutputNames (handleDocumentsStage some
        (.arr [.doc [("a", .int32 1)]]) docInputQuery {})
      = some ["documents_aggregate"] ∧
    ("documents_aggregate" : String) ≠ "document" :=
  ⟨rfl, by decide⟩

/-- Claim C1 (amended): every supported stage handler returns a plan with
exactly one output column.  For `HandleLookup` and `HandleGraphLookup` the
column is named `document` unconditionally; for `HandleFacet` it is
`document` whenever every dispatcher result is `document`-columned and the
input plan is; for `HandleUnionWith` whenever the input plan is; and
`HandleDocumentsStage` returns one column named `documents_aggregate`
(not `document`, contrary to the claim). -/
theorem c1_single_output_amended :
    (∀ (env : CompileEnv) (mutate : PipelineMutator) (w : StageWriteSet)
       (v : BsonValue) (q : Query) (c : AggregationPipelineBuildContext)
       (q' : Query) (c' : AggregationPipelineBuildContext),
      handleLookup env mutate w v q c = .ok (q', c') →
      outputColumnNames q' = ["document"]) ∧
    (∀ (env : CompileEnv) (v : BsonValue) (q : Query)
       (c : AggregationPipelineBuildContext) (q' : Query)
       (c' : AggregationPipelineBuildContext),
      handleGraphLookup env v q c = .ok (q', c') →
      outputColumnNames q' = ["document"]) ∧
    (∀ (mutate : PipelineMutator) (v : BsonValue) (q : Query)
       (c : AggregationPipelineBuildContext) (q' : Query)
       (c' : AggregationPipelineBuildContext),
      (∀ qq b cc q2 c2, mutate qq b cc = .ok (q2, c2) →
        outputColumnNames q2 = ["document"]) →
      outputColumnNames q = ["document"] →
      handleFacet mutate v q c = .ok (q', c') →
      outputColumnNames q' = ["document"]) ∧
    (∀ (env : CompileEnv) (mutate : PipelineMutator) (v : BsonValue)
       (q : Query) (c : AggregationPipelineBuildContext) (q' : Query)
       (c' : AggregationPipelineBuildContext),
      outputColumnNames q = ["document"] →
      handleUnionWith env mutate v q c = .ok (q', c') →
      outputColumnNames q' = ["document"]) ∧
    (∀ (evalExpr : BsonValue → Option BsonValue) (v : BsonValue) (q : Query)
       (c : AggregationPipelineBuildContext) (q' : Query)
       (c' : AggregationPipelineBuildContext),
      handleDocumentsStage evalExpr v q c = .ok (q', c') →
      outputColumnNames q' = ["documents_aggregate"] ∧
        q'.targetList.length = 1) := by
  refine ⟨?_, ?_, ?_, ?_, ?_⟩
  · intro env mutate w v q c q' c' h
    exact handleLookup_names env mutate w v q c q' c' h
  · intro env v q c q' c' h
    exact handleGraphLookup_names env v q c q' c' h
  · intro mutate v q c q' c' hmut hq h
    exact handleFacet_names mutate v q c q' c' hmut hq h
  · intro env mutate v q c q' c' hq h
    exact handleUnionWith_names env mutate v q c q' c' hq h
  · intro evalExpr v q c q' c' h
    have h1 := handleDocumentsStage_names evalExpr v q c q' c' h
    refine ⟨h1, ?_⟩
    have h2 := congrArg List.length h1
    simpa [outputColumnNames] using h2

/-- Witness for C1's amended statement: each of the five handlers run at
a concrete valid input produces a single-column plan with the stated
column name. -/
theorem c1_single_output_amended_witness :
    exceptOutputNames (handleLookup witnessEnv
        (mutateLookupOnly witnessEnv emptyWriteSet 1) emptyWriteSet
        (lookupSpecChain 0) docInputQuery {}) = some ["document"] ∧
    exceptOutputNames (handleGraphLookup witnessEnv c1GraphSpec docInputQuery {})
      = some ["document"] ∧
    exceptOutputNames (handleFacet c1MutDoc (.doc [("b", .arr [])])
        docInputQuery {}) = some ["document"] ∧
    exceptOutputNames (handleUnionWith witnessEnv c1MutDoc (.utf8 "other")
        docInputQuery {}) = some ["document"] ∧
    exceptOutputNames (handleDocumentsStage some (.arr [.doc [("a", .int32 1)]])
        docInputQuery {}) = some ["documents_aggregate"] := by
  refine ⟨?_, ?_, ?_, ?_, ?_⟩
  · obtain ⟨p, hp⟩ := except_ok_of_isOk (show (handleLookup witnessEnv
        (mutateLookupOnly witnessEnv emptyWriteSet 1) emptyWriteSet
        (lookupSpecChain 0) docInputQuery {}).isOk = true from rfl)
    obtain ⟨p1, p2⟩ := p
    rw [hp]
    exact congrArg some (c1_single_output_amended.1 _ _ _ _ _ _ _ _ hp)
  · obtain ⟨p, hp⟩ := except_ok_of_isOk (show (handleGraphLookup witnessEnv
        c1GraphSpec docInputQuery {}).isOk = true from rfl)
    obtain ⟨p1, p2⟩ := p
    rw [hp]
    exact congrArg some (c1_single_output_amended.2.1 _ _ _ _ _ _ hp)
  · obtain ⟨p, hp⟩ := except_ok_of_isOk (show (handleFacet c1MutDoc
        (.doc [("b", .arr [])]) docInputQuery {}).isOk = true from rfl)
    obtain ⟨p1, p2⟩ := p
    rw [hp]
    refine congrArg some (c1_single_output_amended.2.2.1 _ _ _ _ _ _ ?_ ?_ hp)
    · intro qq b cc q2 c2 hm
      cases hm
      rfl
    · rfl
  · obtain ⟨p, hp⟩ := except_ok_of_isOk (show (handleUnionWith witnessEnv
        c1MutDoc (.utf8 "other") docInputQuery {}).isOk = true from rfl)
    obtain ⟨p1, p2⟩ := p
    rw [hp]
    refine congrArg some (c1_single_output_amended.2.2.2.1 _ _ _ _ _ _ _ ?_ hp)
    rfl
  · obtain ⟨p, hp⟩ := except_ok_of_isOk
      (show (handleDocumentsStage some (.arr [.doc [("a", .int32 1)]])
        docInputQuery {}).isOk = true from rfl)
    obtain ⟨p1, p2⟩ := p
    rw [hp]
    exact congrArg some (c1_single_output_amended.2.2.2.2 _ _ _ _ _ _ hp).1

/-! ## Claim C5 -/

/-- Claim C5: the `on == ["_id"]` default does succeed for every index
list, but the uniqueness validation does NOT require the unique index key
set to exactly equal the `on` field set: `IsCompoundUniqueIndexPresent`
compares the count of leading index keys found in the `on` set against
the number of `on` fields instead of the index's own key count, so the
`{a, b, c}` unique index is accepted for `on: ["a", "b"]` although the
claim's exact-equality rule (`mergeOnClaimAllows`) rejects it. -/
theorem c5_merge_on_superset_index_accepted :
    (∀ (idxs : List IndexDetails) (cid : Nat),
      vaildateMergeOnFieldValues (.utf8 "_id") cid idxs = .ok ()) ∧
    vaildateMergeOnFieldValues (.arr [.utf8 "a", .utf8 "b"]) 5
      [c5SupersetIndex] = .ok () ∧
    mergeOnClaimAllows (.arr [.utf8 "a", .utf8 "b"]) [c5SupersetIndex]
      = false :=
  ⟨fun idxs cid => rfl, rfl, by decide⟩

/-! ## Claim C2 -/

/-- Claim C2: the built `$graphLookup` plan carries the recursive CTE
machinery the claim describes — the inner query applies
`DISTINCT ON` over sort-group ref 1 (the `baseDocId` column, entry 2 of
its target list) ordered by refs 1 and 2 (ref 2 being the `depth`
column), its CTE is recursive with the cycle clause lowered over
`baseDocId`/`is_cycle`/`path`, and the per-document CTE query COALESCEs
the aggregated sublink with `{ as: [] }` — and its execution semantics
terminate and implement first-seen-depth BFS: the working table is empty
past `docs.length` rounds even with cycles and no `maxDepth`; every
emitted row is a reachable document at its emitted depth; under unique
document ids, a document reachable first at depth `n` gets exactly
`some n` as its retained depth, and a document with a retained depth is
reachable. -/
theorem c2_graphlookup_termination_first_seen :
    (∀ (env : CompileEnv) (ps : String) (args : GraphLookupArgs)
       (pc : AggregationPipelineBuildContext) (bce : Cte) (blu : Nat)
       (gq : Query),
      buildRecursiveGraphLookupQuery env ps args pc bce blu = .ok gq →
      ∃ inner : Query,
        rteSubqueryOf (gq.rtable.headD (.relationRte "" [])) = some inner ∧
        inner.hasDistinctOn = true ∧
        inner.distinctClause = [bsonSortGroupClause 1] ∧
        inner.sortClause = [bsonSortGroupClause 1, bsonSortGroupClause 2] ∧
        ((inner.targetList.drop 1).headD dummyTargetEntry).expr
          = .varE 1 3 0 ∧
        ((inner.targetList.drop 1).headD dummyTargetEntry).ressortgroupref
          = 1 ∧
        ((inner.targetList.drop 2).headD dummyTargetEntry).expr
          = .varE 1 2 0 ∧
        ((inner.targetList.drop 2).headD dummyTargetEntry).ressortgroupref
          = 2 ∧
        inner.hasRecursive = true ∧
        ∃ cte, inner.cteList = [cte] ∧ cte.cterecursive = true ∧
          cte.ctecolnames =
            ["document", "depth", "baseDocId", "is_cycle", "path"] ∧
          ∃ cyc, cte.loweredCycle = some cyc ∧
            cyc.cycleColList = ["baseDocId"] ∧
            cyc.cycleMarkColumn = "is_cycle" ∧
            cyc.cyclePathColumn = "path" ∧
            cyc.cycleMarkDefault = false ∧ cyc.cycleMarkValue = true) ∧
    (∀ (env : CompileEnv) (ps : String) (bce : Cte) (args : GraphLookupArgs)
       (pc : AggregationPipelineBuildContext) (q2 : Query),
      buildGraphLookupCteQuery env ps bce args pc = .ok q2 →
      ∃ rsq : Query, q2.targetList.map (fun te => te.expr) =
        [.varE 1 1 0,
         .coalesceE [.subLinkE rsq,
           .constBson (.doc [(args.asField, .arr [])])]]) ∧
    (∀ (docs : List GDoc) (start : List Int) (m : Nat),
      docs.length < m → graphLevels docs start m = []) ∧
    (∀ (docs : List GDoc) (start : List Int) (r : GRow),
      r ∈ graphAllRows docs start →
      r.doc ∈ docs ∧ ReachN docs start r.depth r.doc) ∧
    (∀ (docs : List GDoc) (start : List Int) (d : GDoc) (n : Nat),
      (docs.map GDoc.gid).Nodup → d ∈ docs →
      ReachN docs start n d → (∀ k, ReachN docs start k d → n ≤ k) →
      graphMinDepth docs start d.gid = some n) ∧
    (∀ (docs : List GDoc) (start : List Int) (d : GDoc),
      (docs.map GDoc.gid).Nodup → d ∈ docs →
      graphMinDepth docs start d.gid ≠ none → Reach docs start d) :=
  ⟨buildRecursiveGraphLookupQuery_shape, buildGraphLookupCteQuery_shape,
   graphLevels_empty, graph_sound, graph_first_seen, graph_reached_only⟩

/-- Witness for C2 at the 3-node cycle and concrete builder runs. -/
theorem c2_graphlookup_termination_first_seen_witness :
    (∃ q inner, c2RecRun = .ok q ∧
      rteSubqueryOf (q.rtable.headD (.relationRte "" [])) = some inner ∧
      inner.hasDistinctOn = true ∧ inner.hasRecursive = true) ∧
    (∃ q2 rsq, c2CteRun = .ok q2 ∧ q2.targetList.map (fun te => te.expr) =
      [.varE 1 1 0, .coalesceE [.subLinkE rsq,
        .constBson (.doc [("hops", .arr [])])]]) ∧
    graphLevels cycleDocs3 [10] 4 = [] ∧
    ((⟨⟨2, 20, [30]⟩, 1, [1, 2], false⟩ : GRow).doc ∈ cycleDocs3 ∧
      ReachN cycleDocs3 [10] (⟨⟨2, 20, [30]⟩, 1, [1, 2], false⟩ : GRow).depth
        (⟨⟨2, 20, [30]⟩, 1, [1, 2], false⟩ : GRow).doc) ∧
    graphMinDepth cycleDocs3 [10] 3 = some 2 ∧
    Reach cycleDocs3 [10] ⟨2, 20, [30]⟩ := by
  refine ⟨?_, ?_, ?_, ?_, ?_, ?_⟩
  · obtain ⟨q, hq⟩ := except_ok_of_isOk (show c2RecRun.isOk = true from rfl)
    obtain ⟨inner, h1, h2, h3, h4, h5, h6, h7, h8, h9, hcte⟩ :=
      c2_graphlookup_termination_first_seen.1 witnessEnv "src"
        witnessGraphArgs {} c2BaseCte 1 q hq
    exact ⟨q, inner, hq, h1, h2, h9⟩
  · obtain ⟨q2, hq2⟩ := except_ok_of_isOk (show c2CteRun.isOk = true from rfl)
    obtain ⟨rsq, hr⟩ := c2_graphlookup_termination_first_seen.2.1 witnessEnv
      "src" c2BaseCte witnessGraphArgs {} q2 hq2
    exact ⟨q2, rsq, hq2, hr⟩
  · exact c2_graphlookup_termination_first_seen.2.2.1 cycleDocs3 [10] 4
      (by decide)
  · exact c2_graphlookup_termination_first_seen.2.2.2.1 cycleDocs3 [10]
      ⟨⟨2, 20, [30]⟩, 1, [1, 2], false⟩ (by decide)
  · refine c2_graphlookup_termination_first_seen.2.2.2.2.1 cycleDocs3 [10]
      ⟨3, 30, [10]⟩ 2 (by decide) (by decide) ?_ ?_
    · exact .step 1 ⟨2, 20, [30]⟩ ⟨3, 30, [10]⟩
        (.step 0 ⟨1, 10, [20]⟩ ⟨2, 20, [30]⟩
          (.base ⟨1, 10, [20]⟩ (by decide) (by decide))
          (by decide) (by decide))
        (by decide) (by decide)
    · intro k hk
      rcases k with _ | _ | k
      · cases hk with
        | base d hd hs => exact absurd hs (by decide)
      · cases hk with
        | step n u d hu hd' he =>
          cases hu with
          | base u hud hus =>
            fin_cases hud <;>
              first
                | exact absurd he (by decide)
                | exact absurd hus (by decide)
      · omega
  · exact c2_graphlookup_termination_first_seen.2.2.2.2.2 cycleDocs3 [10]
      ⟨2, 20, [30]⟩ (by decide) (by decide) (by decide)
